import Mathlib

/-!
Verification of the genie-whisper real-time transcription backend
(`src/python/server.py`, `src/python/vad.py`).

The development shallowly embeds the pieces of the code that the claims are
about:

* Python `dict` / `collections.OrderedDict` values are modelled as association
  lists in insertion order (Python dicts preserve insertion order; assigning
  to an existing key keeps its position, `OrderedDict.move_to_end` moves an
  entry to the back, `popitem(last=False)` pops the front).
* `TranscriptionCache` (server.py:421-817) is embedded with its four dicts and
  statistics counters.  The md5 hashing of audio bytes and text, the audio
  fingerprint computation and the similarity scores are taken as parameters of
  the embedding where the cache only passes them around; the concrete
  similarity arithmetic of `_calculate_audio_similarity` is embedded
  separately (over the reals, since `np.std` takes a square root).
* Fallible code (a Python statement that can raise) is embedded with `Except`,
  `PyErr`-style: `.error ()` marks a raised exception.
* Wall-clock time is a rational number of seconds passed into each loop
  iteration; machine floats are modelled as exact rationals/reals.
-/

namespace GenieWhisper

/-! ## Python dictionaries as association lists -/

variable {K V : Type}

/-- Lookup of the first (and, for dicts built by `dictSet`, only) entry of an
association list with the given key.  Models `d[k]`/`k in d` on a Python dict. -/
def dictFind? [DecidableEq K] : List (K × V) → K → Option V
  | [], _ => none
  | (k', v) :: rest, k => if k' = k then some v else dictFind? rest k

/-- Membership test, models `k in d`. -/
def dictContains [DecidableEq K] (d : List (K × V)) (k : K) : Bool :=
  (dictFind? d k).isSome

/-- Assignment `d[k] = v` on a Python dict: an existing key keeps its position
and gets the new value; a new key is appended at the back. -/
def dictSet [DecidableEq K] (d : List (K × V)) (k : K) (v : V) : List (K × V) :=
  if dictContains d k then
    d.map (fun p => if p.1 = k then (k, v) else p)
  else
    d ++ [(k, v)]

/-- Deletion `del d[k]`: removes the entry with the given key. -/
def dictErase [DecidableEq K] (d : List (K × V)) (k : K) : List (K × V) :=
  d.filter (fun p => !decide (p.1 = k))

/-- Models `OrderedDict.move_to_end(k)`: the entry with key `k` moves to the
back, other entries keep their order. -/
def dictMoveToEnd [DecidableEq K] (d : List (K × V)) (k : K) : List (K × V) :=
  match dictFind? d k with
  | some v => dictErase d k ++ [(k, v)]
  | none => d

end GenieWhisper

namespace GenieWhisper

/-! ## TranscriptionCache (server.py:421-817)

The cache is parameterised by:
* `K` — the type of md5 hash digests,
* `F` — the type of audio fingerprints (feature dictionaries),
* `hashA : A → K` — `hashlib.md5(audio.tobytes()).hexdigest()`,
* `hashT : String → K` — `_hash_text` (md5 of the utf-8 bytes),
* `fpA : A → F` — `_compute_audio_fingerprint`,
* `simA : F → F → ℚ` — `_calculate_audio_similarity` (a Python float, hence a
  rational value),
* `simT : String → String → ℚ` — `_calculate_text_similarity`
  (`SequenceMatcher.ratio`).

`persistent_path` is `None` in the in-memory configuration embedded here, so
`_load_persistent_cache` / `_save_persistent_cache` are no-ops and are left
out. -/

/-- State of `TranscriptionCache`: the four dictionaries and the statistics
counters (`hit_ratio` in the source is spelled `hit_rate` here). -/
structure CacheState (K F : Type) where
  cache : List (K × String)
  phrase_cache : List (K × String)
  audio_fingerprint_cache : List (K × F)
  phrase_frequency : List (K × Nat)
  max_size : Nat
  similarity_threshold : ℚ
  cache_hits : Nat
  phrase_hits : Nat
  similarity_hits : Nat
  audio_hits : Nat
  total_lookups : Nat
  hit_rate : ℚ
  deriving Repr

variable {A K F : Type} [DecidableEq K]

/-- Combined hit ratio as recomputed on every hit
(server.py:676, 694: `(cache_hits + phrase_hits + similarity_hits +
audio_hits) / total_lookups`). -/
def CacheState.ratio (st : CacheState K F) : ℚ :=
  ((st.cache_hits + st.phrase_hits + st.similarity_hits + st.audio_hits : Nat) : ℚ)
    / (st.total_lookups : ℚ)

/-- Common phrases preloaded by `_initialize_common_phrases`
(server.py:465-491). -/
def commonPhrases : List String :=
  [ "import numpy as np",
    "import torch",
    "import tensorflow as tf",
    "def __init__(self):",
    "return result",
    "if __name__ == '__main__':",
    "new function",
    "new class",
    "create variable",
    "add comment",
    "delete line",
    "save file",
    "run program",
    "stop program",
    "import library" ]

/-- A fresh in-memory `TranscriptionCache(max_size, similarity_threshold)`:
empty main/fingerprint caches, the common phrases preloaded into
`phrase_cache` and `phrase_frequency` with count 1, all counters zero
(server.py:424-463). -/
def initialCache (hashT : String → K) (maxSize : Nat) (threshold : ℚ) :
    CacheState K F :=
  { cache := []
    phrase_cache :=
      commonPhrases.foldl (fun d p => dictSet d (hashT p) p) []
    audio_fingerprint_cache := []
    phrase_frequency :=
      commonPhrases.foldl (fun d p => dictSet d (hashT p) 1) []
    max_size := maxSize
    similarity_threshold := threshold
    cache_hits := 0
    phrase_hits := 0
    similarity_hits := 0
    audio_hits := 0
    total_lookups := 0
    hit_rate := 0 }

/-- Models `TranscriptionCache.get` (server.py:661-699).  Returns the lookup
result together with the updated state.  `.ok (some t)` is a hit, `.ok none`
is a miss, `.error ()` is the `KeyError` that `self.cache[stored_hash]`
(line 697) would raise if the similarity scan matched a fingerprint whose key
is missing from the exact cache (the statistics are already updated at that
point, as in the source). -/
def TranscriptionCache.get (hashA : A → K) (fpA : A → F) (simA : F → F → ℚ)
    (st : CacheState K F) (audio : A) :
    Except Unit (Option String) × CacheState K F :=
  let st := { st with total_lookups := st.total_lookups + 1 }
  let audio_hash := hashA audio
  match dictFind? st.cache audio_hash with
  | some text =>
    let st := { st with cache_hits := st.cache_hits + 1 }
    let st := { st with hit_rate := st.ratio,
                        cache := dictMoveToEnd st.cache audio_hash }
    (.ok (some text), st)
  | none =>
    let audio_fingerprint := fpA audio
    match st.audio_fingerprint_cache.find?
        (fun p => decide (st.similarity_threshold ≤ simA audio_fingerprint p.2)) with
    | some (stored_hash, _) =>
      let st := { st with audio_hits := st.audio_hits + 1 }
      let st := { st with hit_rate := st.ratio }
      match dictFind? st.cache stored_hash with
      | some text => (.ok (some text), st)
      | none => (.error (), st)
    | none => (.ok none, st)

/-- The `while len(self.cache) > self.max_size` eviction loop of
`_enforce_size_limit` (server.py:768-774): pop the front (least recently
used) entry of the ordered dict and delete its fingerprint entry. -/
def evictOldest : List (K × String) → List (K × F) → Nat →
    List (K × String) × List (K × F)
  | [], fps, _ => ([], fps)
  | (k, v) :: rest, fps, maxSize =>
    if ((k, v) :: rest).length ≤ maxSize then ((k, v) :: rest, fps)
    else evictOldest rest (dictErase fps k) maxSize

/-- Models `_enforce_size_limit` (server.py:765-785): the LRU eviction loop
followed by the phrase-cache pruning (`len(phrase_cache) > max_size / 2`
compares against the real half, i.e. `2 * len > max_size`; the kept keys are
the `int(max_size / 2)` most frequent phrases, sorted stably by descending
frequency as `sorted(..., reverse=True)` does). -/
def enforceSizeLimit (st : CacheState K F) : CacheState K F :=
  let r := evictOldest st.cache st.audio_fingerprint_cache st.max_size
  let st := { st with cache := r.1, audio_fingerprint_cache := r.2 }
  if 2 * st.phrase_cache.length > st.max_size then
    let sorted_phrases :=
      st.phrase_frequency.mergeSort (fun x y => decide (y.2 ≤ x.2))
    let keep_phrases := (sorted_phrases.take (st.max_size / 2)).map (·.1)
    { st with phrase_cache :=
        st.phrase_cache.filter (fun p => keep_phrases.any (fun k => decide (k = p.1))) }
  else st

/-- Models `TranscriptionCache.set` (server.py:736-763): store the text under
the audio hash, store the fingerprint, bump the phrase frequency, promote the
phrase once its count reaches 3, then enforce the size limit.  (The periodic
persistence save is a no-op with `persistent_path = None`.) -/
def TranscriptionCache.set (hashA : A → K) (hashT : String → K) (fpA : A → F)
    (st : CacheState K F) (audio : A) (text : String) : CacheState K F :=
  let audio_hash := hashA audio
  let st := { st with
    cache := dictSet st.cache audio_hash text
    audio_fingerprint_cache :=
      dictSet st.audio_fingerprint_cache audio_hash (fpA audio) }
  let text_hash := hashT text
  let freq := ((dictFind? st.phrase_frequency text_hash).getD 0) + 1
  let st := { st with phrase_frequency := dictSet st.phrase_frequency text_hash freq }
  let st :=
    if 3 ≤ freq then { st with phrase_cache := dictSet st.phrase_cache text_hash text }
    else st
  enforceSizeLimit st

/-- Models `TranscriptionCache.get_by_text` (server.py:701-734): phrase-cache
hit first, then a best-match scan of the cached transcripts by text
similarity; the final `if best_match:` is Python truthiness, so an empty
best match is reported as a miss. -/
def TranscriptionCache.getByText (hashT : String → K) (simT : String → String → ℚ)
    (st : CacheState K F) (text : String) : Option String × CacheState K F :=
  let text_hash := hashT text
  match dictFind? st.phrase_cache text_hash with
  | some t => (some t, { st with phrase_hits := st.phrase_hits + 1 })
  | none =>
    if st.cache.isEmpty then (none, st)
    else
      let best := st.cache.foldl
        (fun (acc : ℚ × Option String) p =>
          let s := simT text p.2
          if acc.1 < s ∧ st.similarity_threshold ≤ s then (s, some p.2) else acc)
        (0, none)
      match best.2 with
      | some t =>
        if t ≠ "" then (some t, { st with similarity_hits := st.similarity_hits + 1 })
        else (none, st)
      | none => (none, st)

/-- Models `TranscriptionCache.clear` (server.py:807-817): the exact cache and
the fingerprint cache are emptied and the counters reset; the phrase cache is
kept. -/
def TranscriptionCache.clear (st : CacheState K F) : CacheState K F :=
  { st with cache := [], audio_fingerprint_cache := [],
            total_lookups := 0, cache_hits := 0, phrase_hits := 0,
            similarity_hits := 0, audio_hits := 0, hit_rate := 0 }

end GenieWhisper

namespace GenieWhisper

/-! ## Audio fingerprints and `_calculate_audio_similarity`
(server.py:522-605)

Audio buffers are lists of rational samples (every float sample is a
rational).  The feature values are real numbers because `np.std` takes a
square root; the other features are rational and are also provided as
computable rational functions for use in decidable hypotheses. -/

/-- Sum of samples, `np.sum(audio)`. -/
def sumQ (l : List ℚ) : ℚ := l.sum

/-- Mean sample value, `np.mean(audio)` (only used on nonempty buffers). -/
def meanQ (l : List ℚ) : ℚ := l.sum / l.length

/-- Population variance, `np.mean((audio - mean)**2)`; `np.std` is its square
root. -/
def varQ (l : List ℚ) : ℚ :=
  ((l.map (fun x => (x - meanQ l) ^ 2)).sum) / l.length

/-- Signal energy, `np.sum(audio**2)`. -/
def energyQ (l : List ℚ) : ℚ := (l.map (fun x => x ^ 2)).sum

/-- Maximum sample, `np.max(audio)` (nonempty buffers). -/
def maxQ : List ℚ → ℚ
  | [] => 0
  | x :: xs => xs.foldl max x

/-- Minimum sample, `np.min(audio)` (nonempty buffers). -/
def minQ : List ℚ → ℚ
  | [] => 0
  | x :: xs => xs.foldl min x

/-- Audio fingerprint: the feature dictionary built by
`_compute_audio_fingerprint` (server.py:522-557).  `peak_freq` is present
only when the buffer is longer than 1600 samples and scipy is available
(`spectral_centroid` is stored alongside it in the source but never read by
the similarity computation; it behaves identically to `peak_freq` for
presence, so the single optional field models the `'peak_freq' in features`
test faithfully). -/
structure Fingerprint where
  flength : ℝ
  fmean : ℝ
  fstd : ℝ
  fmax : ℝ
  fmin : ℝ
  fenergy : ℝ
  peak_freq : Option ℝ

/-- Models `_compute_audio_fingerprint` (server.py:522-557).  An empty buffer
yields the empty dictionary (`none`).  The dominant frequency `peak` is the
argmax of the scipy periodogram, an external numeric routine abstracted as an
input; it is included in the fingerprint exactly when the buffer is longer
than 1600 samples and scipy is importable (`peak = none` models the
`except ImportError` path). -/
noncomputable def computeAudioFingerprint (audio : List ℚ) (peak : Option ℝ) :
    Option Fingerprint :=
  if audio.length = 0 then none
  else some
    { flength := (audio.length : ℝ)
      fmean := (meanQ audio : ℝ)
      fstd := Real.sqrt (varQ audio : ℝ)
      fmax := (maxQ audio : ℝ)
      fmin := (minQ audio : ℝ)
      fenergy := (energyQ audio : ℝ)
      peak_freq := if 1600 < audio.length then peak else none }

/-- Models `_calculate_audio_similarity` (server.py:572-605): the weighted
combination of per-feature similarities (weights 0.1 / 0.3 / 0.3 / 0.3), the
optional dominant-frequency blending (`similarity * 0.8 + peak * 0.2`), and
the final clamp into [0, 1].  Empty feature dictionaries give 0.  In this
model all feature keys are present and the denominators `max(0.01, _)` and
`max(l1, l2)` (lengths are at least 1) are positive, so the
`KeyError`/`ZeroDivisionError` handler is unreachable. -/
noncomputable def calculateAudioSimilarity :
    Option Fingerprint → Option Fingerprint → ℝ
  | none, _ => 0
  | some _, none => 0
  | some f1, some f2 =>
    let length_similarity := min f1.flength f2.flength / max f1.flength f2.flength
    let mean_similarity :=
      1 - min 1 (|f1.fmean - f2.fmean| / max 0.01 (max |f1.fmean| |f2.fmean|))
    let std_similarity :=
      1 - min 1 (|f1.fstd - f2.fstd| / max 0.01 (max f1.fstd f2.fstd))
    let energy_similarity :=
      min f1.fenergy f2.fenergy / max 0.01 (max f1.fenergy f2.fenergy)
    let similarity := length_similarity * 0.1 + mean_similarity * 0.3 +
      std_similarity * 0.3 + energy_similarity * 0.3
    let similarity :=
      match f1.peak_freq, f2.peak_freq with
      | some p1, some p2 =>
        let peak_freq_similarity := 1 - min 1 (|p1 - p2| / max 1 (max p1 p2))
        similarity * 0.8 + peak_freq_similarity * 0.2
      | _, _ => similarity
    min 1 (max 0 similarity)

end GenieWhisper

namespace GenieWhisper

/-! ## SileroVAD (vad.py), WhisperTranscriber and the server loop (server.py)

The external numeric capabilities (the Silero/WebRTC classifier, the Whisper
model, the text formatter, md5, SequenceMatcher) are inputs of the embedding:
section variables below.  `Except Unit _` marks calls that can raise:
`.error ()` is a raised exception. -/

section Server

variable {K F : Type} [DecidableEq K]
variable (hashA : List ℚ → K) (hashT : String → K) (fpA : List ℚ → F)
variable (simA : F → F → ℚ) (simT : String → String → ℚ)
variable (modelText : List ℚ → String) (fmt : String → String)

/-- Python whitespace test used by `str.strip()`. -/
def isPySpace (c : Char) : Bool :=
  c = ' ' || c = '\t' || c = '\n' || c = '\r' || c = '\x0b' || c = '\x0c'

/-- Models Python's `str.strip()`: drop leading and trailing whitespace. -/
def pyStrip (s : String) : String :=
  String.mk (((s.toList.dropWhile isPySpace).reverse.dropWhile isPySpace).reverse)

/-- Models `SileroVAD.is_speech` (vad.py:101-135): with no model loaded the
verdict defaults to speech; an exception raised while classifying is caught
and likewise defaults to speech (fail open).  `classify` is the outcome of
the torch model call: `.ok b` a verdict, `.error ()` a raised exception.
`WebRTCVAD.is_speech` (vad.py:286-316) has the same error structure. -/
def SileroVAD.isSpeech (modelLoaded : Bool) (classify : Except Unit Bool) : Bool :=
  if !modelLoaded then true
  else
    match classify with
    | .ok b => b
    | .error _ => true

/-- The cache-miss path of `WhisperTranscriber.transcribe`
(server.py:979-1071): look up an initial prompt via `get_by_text("")`
(mutates only statistics), call the Whisper model, format the text, store the
formatted text in the cache and return it.  The third component records that
the external model was invoked. -/
def WhisperTranscriber.transcribeMiss (st : CacheState K F) (audio : List ℚ) :
    String × CacheState K F × Bool :=
  let (_, st) := TranscriptionCache.getByText hashT simT st ""
  let text := fmt (modelText audio)
  let st := TranscriptionCache.set hashA hashT fpA st audio text
  (text, st, true)

/-- Models `WhisperTranscriber.transcribe` (server.py:945-1075): empty result
when the model is not loaded or the audio is empty; then the cache lookup.
`if cached_text:` is Python truthiness, so only a hit with non-empty text
returns early (formatted); a hit with empty text falls through to the model.
A `KeyError` escaping `cache.get` is caught by the outer handler (line 1073)
and yields `""` without a model call. -/
def WhisperTranscriber.transcribe (modelLoaded : Bool)
    (st : CacheState K F) (audio : List ℚ) : String × CacheState K F × Bool :=
  if !modelLoaded then ("", st, false)
  else if audio.length = 0 then ("", st, false)
  else
    match TranscriptionCache.get hashA fpA simA st audio with
    | (.ok (some cached_text), st) =>
      if cached_text ≠ "" then (fmt cached_text, st, false)
      else WhisperTranscriber.transcribeMiss hashA hashT fpA simT modelText fmt st audio
    | (.ok none, st) =>
      WhisperTranscriber.transcribeMiss hashA hashT fpA simT modelText fmt st audio
    | (.error _, st) => ("", st, false)

/-- Activation modes of the server (`--activation-mode`). -/
inductive ActivationMode
  | manual
  | wake_word
  | always_on
  deriving DecidableEq, Repr

/-- Messages the server sends to the frontend, restricted to the ones the
claims are about. -/
inductive ServerMsg
  | wakeWordDetected
  | listeningForWakeWord
  | transcriptionFinal (text : String)
  | statusStoppedListening
  | statusNoSpeech
  deriving DecidableEq, Repr

/-- Which VADs the `AudioProcessor` holds (server.py:165-192): both Silero
and WebRTC, a single primary one, or none. -/
inductive VadSetup
  | both
  | single
  | noVad
  deriving DecidableEq, Repr

/-- State of `GenieWhisperServer` together with the `AudioProcessor` flags
and observation logs (messages sent, text injected, external model calls,
utterances emitted for processing). -/
structure ServerState (K F : Type) where
  is_listening : Bool
  is_recording : Bool
  use_vad : Bool
  vad_available : Bool
  vad_setup : VadSetup
  activation_mode : ActivationMode
  reset_wake_word_after_silence : Bool
  silence_threshold_ms : ℚ
  wake_word_timeout_ms : ℚ
  sample_rate : ℚ
  speech_active : Bool
  accumulated_audio : List (List ℚ)
  last_speech_time : ℚ
  wake_word_detected : Bool
  speech_started_time : ℚ
  cache : CacheState K F
  messages : List ServerMsg
  injected : List String
  model_calls : Nat
  emitted : List (List ℚ)

variable (modelLoaded : Bool)

/-- Models `_process_accumulated_audio` (server.py:1503-1547).  An empty
accumulator only resets state; otherwise the chunks are concatenated and
transcribed (the utterance is recorded in `emitted`; the transcriber caches
the result itself on a miss, server.py:1067), a non-whitespace transcription
is sent and injected, and the `finally` block resets the accumulator and
`speech_active`, resetting the wake-word gate when configured.  The
dispatch-level `self.cache.set` on server.py:1535 is dead code:
`GenieWhisperServer` defines no `cache` attribute, so that statement always
raises `AttributeError` — after the send and the injection — and the `except`
on line 1537 only logs it, so the line never alters any state and control
falls into the `finally` block.  There is no minimum-duration check: the
duration computed on line 1517 is only logged. -/
def processAccumulatedAudio (st : ServerState K F) : ServerState K F :=
  if st.accumulated_audio.isEmpty then
    let st := { st with speech_active := false }
    if st.activation_mode = .wake_word ∧ st.reset_wake_word_after_silence then
      { st with wake_word_detected := false,
                messages := st.messages ++ [.listeningForWakeWord] }
    else st
  else
    let audio_to_process := st.accumulated_audio.flatten
    let r := WhisperTranscriber.transcribe hashA hashT fpA simA simT modelText fmt
      modelLoaded st.cache audio_to_process
    let transcription := r.1
    let st := { st with cache := r.2.1,
                        model_calls := st.model_calls + (if r.2.2 then 1 else 0),
                        emitted := st.emitted ++ [audio_to_process] }
    let st :=
      if pyStrip transcription ≠ "" then
        { st with messages := st.messages ++ [.transcriptionFinal transcription],
                  injected := st.injected ++ [transcription] }
      else st
    let st := { st with accumulated_audio := [], speech_active := false }
    if st.activation_mode = .wake_word ∧ st.reset_wake_word_after_silence then
      { st with wake_word_detected := false,
                messages := st.messages ++ [.listeningForWakeWord] }
    else st

/-- One iteration of the `while self.is_listening` body of
`_transcription_loop` (server.py:1426-1494).  Inputs: the current wall-clock
time `now` in seconds (the source calls `time.time()` at several spots inside
one iteration; a single instant per iteration models this), the chunk
returned by the queue poll (`none` when the queue was empty), the outcome of
the `vad.is_speech` call at the call site (server.py:1450-1454 set
`is_speech = False` beforehand and leave it `False` when the call raises),
and the wake-word detector verdict. -/
def loopStep (st : ServerState K F) (now : ℚ) (chunk : Option (List ℚ))
    (vadCall : Except Unit Bool) (wakeHit : Bool) : ServerState K F :=
  match chunk with
  | some current_chunk =>
    if st.activation_mode = .wake_word ∧ !st.wake_word_detected then
      if wakeHit then
        { st with wake_word_detected := true,
                  speech_started_time := now,
                  accumulated_audio := [],
                  speech_active := false,
                  last_speech_time := now,
                  messages := st.messages ++ [.wakeWordDetected] }
      else st
    else
      let is_speech :=
        if st.use_vad ∧ st.vad_available then
          match vadCall with
          | .ok b => b
          | .error _ => false
        else true
      if is_speech then
        { st with speech_active := true,
                  accumulated_audio := st.accumulated_audio ++ [current_chunk],
                  last_speech_time := now }
      else if st.speech_active then
        let st := { st with accumulated_audio := st.accumulated_audio ++ [current_chunk] }
        if st.silence_threshold_ms / 1000 < now - st.last_speech_time then
          processAccumulatedAudio hashA hashT fpA simA simT modelText fmt modelLoaded st
        else st
      else st
  | none =>
    let st :=
      if st.speech_active ∧ st.silence_threshold_ms / 1000 < now - st.last_speech_time then
        processAccumulatedAudio hashA hashT fpA simA simT modelText fmt modelLoaded st
      else st
    if st.activation_mode = .wake_word ∧ st.wake_word_detected ∧ !st.speech_active ∧
        st.wake_word_timeout_ms / 1000 < now - st.speech_started_time then
      { st with wake_word_detected := false,
                messages := st.messages ++ [.listeningForWakeWord] }
    else st

/-- The code after the `while` loop of `_transcription_loop`
(server.py:1496-1500): once listening stops, any remaining accumulated audio
is processed. -/
def loopExitFlush (st : ServerState K F) : ServerState K F :=
  if st.accumulated_audio.isEmpty then st
  else processAccumulatedAudio hashA hashT fpA simA simT modelText fmt modelLoaded st

/-- Models `len(x)` applied to an optional array: `len(None)` raises a
`TypeError`. -/
def pyLen : Option (List ℚ) → Except Unit Nat
  | none => .error ()
  | some l => .ok l.length

/-- Models `SileroVAD.get_speech_segments` (vad.py:137-175) and
`WebRTCVAD.get_speech_segments` (vad.py:318-362), whose error structure is
identical: with no model the fallback `[(0, len(audio))]` is returned, and an
exception inside the `try` block is answered by the same fallback from the
handler.  Both fallbacks evaluate `len(audio)` and therefore raise when the
audio is `None`; on `None` input the `try` block itself raises
(`None.squeeze()`), so the handler runs and raises.  `segs` abstracts the
model's segmentation of a real buffer. -/
def vadGetSpeechSegments (modelLoaded : Bool) (segs : List ℚ → List (Nat × Nat))
    (audio : Option (List ℚ)) : Except Unit (List (Nat × Nat)) :=
  if !modelLoaded then
    match pyLen audio with
    | .ok n => .ok [(0, n)]
    | .error e => .error e
  else
    match audio with
    | some l => .ok (segs l)
    | none => .error ()

/-- Models `SileroVAD.filter_audio` (vad.py:177-218): with no model the input
is returned unchanged; an exception inside the `try` block (as raised by
`None.squeeze()` on a `None` input) is caught and the input returned
unchanged — so a `None` input comes back as `None`.  `filtered` abstracts
the model's per-buffer filtering. -/
def SileroVAD.filterAudio (modelLoaded : Bool) (filtered : List ℚ → List ℚ)
    (audio : Option (List ℚ)) : Option (List ℚ) :=
  if !modelLoaded then audio
  else
    match audio with
    | some l => some (filtered l)
    | none => audio

/-- The overlapping-segment merge of `AudioProcessor.filter_audio`
(server.py:304-321). -/
def mergeOverlapping : List (Nat × Nat) → List (Nat × Nat)
  | [] => []
  | first :: rest =>
    let r := rest.foldl
      (fun (acc : List (Nat × Nat) × Nat × Nat) se =>
        if se.1 ≤ acc.2.2 then (acc.1, acc.2.1, max acc.2.2 se.2)
        else (acc.1 ++ [acc.2], se))
      ([], first)
    r.1 ++ [r.2]

variable (sileroLoaded webrtcLoaded : Bool)
variable (sileroSegs webrtcSegs : List ℚ → List (Nat × Nat))
variable (sileroFiltered : List ℚ → List ℚ)

/-- Models `AudioProcessor.filter_audio` (server.py:281-336): with both VADs,
their segment lists are merged (stable sort by start, overlap merge) and the
corresponding slices concatenated; with a single VAD, its `filter_audio` is
delegated to; with none, the input is returned.  Exceptions from the segment
calls propagate (this method has no handler). -/
def AudioProcessor.filterAudio (setup : VadSetup) (audio : Option (List ℚ)) :
    Except Unit (Option (List ℚ)) :=
  match setup with
  | .both =>
    match vadGetSpeechSegments sileroLoaded sileroSegs audio with
    | .error e => .error e
    | .ok silero_segments =>
      match vadGetSpeechSegments webrtcLoaded webrtcSegs audio with
      | .error e => .error e
      | .ok webrtc_segments =>
        let all_segments :=
          (silero_segments ++ webrtc_segments).mergeSort
            (fun x y => decide (x.1 ≤ y.1))
        let merged_segments := mergeOverlapping all_segments
        match audio with
        | some l =>
          if merged_segments.isEmpty then .ok (some [])
          else .ok (some
            ((merged_segments.map (fun se => (l.drop se.1).take (se.2 - se.1))).flatten))
        | none => .error ()
  | .single => .ok (SileroVAD.filterAudio sileroLoaded sileroFiltered audio)
  | .noVad => .ok audio

/-- Models `AudioProcessor.stop_recording` (server.py:232-246): when not
recording it warns and returns an empty array; otherwise it clears the flag,
joins the thread and falls off the end of the function — returning `None`. -/
def AudioProcessor.stopRecording (is_recording : Bool) : Bool × Option (List ℚ) :=
  if !is_recording then (is_recording, some [])
  else (false, none)

/-- The common tail of `_stop_listening` (server.py:1393-1406): transcribe
the final audio when it is non-empty and forward a non-empty transcription.
`len(audio)` raises when the audio is `None`. -/
def stopListenFinal (st : ServerState K F) (audio : Option (List ℚ)) :
    Except (ServerState K F) (ServerState K F) :=
  match pyLen audio with
  | .error _ => .error st
  | .ok n =>
    if 0 < n then
      let l := audio.getD []
      let r := WhisperTranscriber.transcribe hashA hashT fpA simA simT modelText fmt
        modelLoaded st.cache l
      let st := { st with cache := r.2.1,
                          model_calls := st.model_calls + (if r.2.2 then 1 else 0) }
      if r.1 ≠ "" then
        .ok { st with messages := st.messages ++ [.transcriptionFinal r.1],
                      injected := st.injected ++ [r.1] }
      else .ok st
    else .ok st

/-- Models `_stop_listening` (server.py:1363-1406).  The result is
`.error st` when the method raises an uncaught exception, with `st` the
state at the point of the raise.  After `stop_recording()` the local `audio`
is `None` (see `AudioProcessor.stopRecording`), and every subsequent path
evaluates `len` on it or fails inside the VAD filter chain. -/
def stopListening (st : ServerState K F) :
    Except (ServerState K F) (ServerState K F) :=
  if !st.is_listening then .ok st
  else
    let st := { st with is_listening := false,
                        messages := st.messages ++ [ServerMsg.statusStoppedListening] }
    let r := AudioProcessor.stopRecording st.is_recording
    let st := { st with is_recording := r.1 }
    let audio := r.2
    if st.use_vad then
      match AudioProcessor.filterAudio sileroLoaded webrtcLoaded sileroSegs webrtcSegs
          sileroFiltered st.vad_setup audio with
      | .error _ => .error st
      | .ok filtered_audio =>
        match pyLen filtered_audio with
        | .error _ => .error st
        | .ok n =>
          if 0 < n then
            stopListenFinal hashA hashT fpA simA simT modelText fmt modelLoaded st
              filtered_audio
          else .ok { st with messages := st.messages ++ [ServerMsg.statusNoSpeech] }
    else
      stopListenFinal hashA hashT fpA simA simT modelText fmt modelLoaded st audio

end Server

/-! ## Operation alphabet of the public `TranscriptionCache` interface
(for stating invariants over arbitrary call sequences). -/

/-- A public cache operation: `set`, `get`, `get_by_text` or `clear`. -/
inductive CacheOp (A : Type)
  | setOp (audio : A) (text : String)
  | getOp (audio : A)
  | getByTextOp (text : String)
  | clearOp

/-- Apply one public operation to the cache state (the lookup results are
discarded, the state transition kept). -/
def applyCacheOp {A K F : Type} [DecidableEq K] (hashA : A → K) (hashT : String → K)
    (fpA : A → F) (simA : F → F → ℚ) (simT : String → String → ℚ)
    (st : CacheState K F) : CacheOp A → CacheState K F
  | .setOp audio text => TranscriptionCache.set hashA hashT fpA st audio text
  | .getOp audio => (TranscriptionCache.get hashA fpA simA st audio).2
  | .getByTextOp text => (TranscriptionCache.getByText hashT simT st text).2
  | .clearOp => TranscriptionCache.clear st

/-- Apply a sequence of public operations from left to right. -/
def applyCacheOps {A K F : Type} [DecidableEq K] (hashA : A → K) (hashT : String → K)
    (fpA : A → F) (simA : F → F → ℚ) (simT : String → String → ℚ)
    (st : CacheState K F) (ops : List (CacheOp A)) : CacheState K F :=
  ops.foldl (applyCacheOp hashA hashT fpA simA simT) st

/-! ## Test signals for the similarity analysis -/

/-- Alternating test signal `a, -a, a, -a, …` of `2 * n` samples (zero mean,
standard deviation `|a|`, energy `2 * n * a ^ 2`). -/
def altBuf : Nat → ℚ → List ℚ
  | 0, _ => []
  | n + 1, a => a :: -a :: altBuf n a

/-- The `m`-fold repetition of a buffer (same mean and standard deviation,
`m`-fold length and energy). -/
def repeatAudio (m : Nat) (b : List ℚ) : List ℚ :=
  (List.replicate m b).flatten

/-- A concrete server state (default configuration: silence threshold
1000 ms, wake timeout 5000 ms, 16 kHz, VAD enabled, manual mode, fresh
cache of capacity 200 with the default 0.85 similarity threshold) used in
concrete evaluations; the trivial hash/fingerprint instantiations live at the
use sites. -/
def exampleServerState : ServerState Nat Unit :=
  { is_listening := true
    is_recording := true
    use_vad := true
    vad_available := true
    vad_setup := .both
    activation_mode := .manual
    reset_wake_word_after_silence := true
    silence_threshold_ms := 1000
    wake_word_timeout_ms := 5000
    sample_rate := 16000
    speech_active := false
    accumulated_audio := []
    last_speech_time := 0
    wake_word_detected := false
    speech_started_time := 0
    cache := initialCache (fun _ => 1) 200 (17/20)
    messages := []
    injected := []
    model_calls := 0
    emitted := [] }

end GenieWhisper

namespace GenieWhisper

/-! ## Dictionary lemmas -/

variable {K V F : Type} [DecidableEq K]

theorem dictFind?_eq_find? (d : List (K × V)) (k : K) :
    dictFind? d k = (d.find? (fun p => decide (p.1 = k))).map Prod.snd := by
  induction d with
  | nil => rfl
  | cons x rest ih =>
    obtain ⟨k', v⟩ := x
    by_cases h : k' = k
    · simp [dictFind?, h, List.find?]
    · simp [dictFind?, h, List.find?, ih]

theorem dictFind?_eq_none_iff (d : List (K × V)) (k : K) :
    dictFind? d k = none ↔ ∀ p ∈ d, p.1 ≠ k := by
  rw [dictFind?_eq_find?]
  simp [List.find?_eq_none]

theorem dictFind?_append_of_none {d₁ d₂ : List (K × V)} {k : K}
    (h : dictFind? d₁ k = none) :
    dictFind? (d₁ ++ d₂) k = dictFind? d₂ k := by
  induction d₁ with
  | nil => rfl
  | cons x rest ih =>
    obtain ⟨k', v⟩ := x
    by_cases hk : k' = k
    · subst hk
      simp [dictFind?] at h
    · simp only [dictFind?, if_neg hk, List.cons_append] at h ⊢
      exact ih h

theorem dictFind?_drop_of_none {d : List (K × V)} {k : K}
    (h : dictFind? d k = none) (n : Nat) :
    dictFind? (d.drop n) k = none := by
  rw [dictFind?_eq_none_iff] at h ⊢
  exact fun p hp => h p (List.drop_subset n d hp)

theorem dictFind?_map_replace {d : List (K × V)} {k : K} (v : V)
    (h : dictContains d k = true) :
    dictFind? (d.map (fun p => if p.1 = k then (k, v) else p)) k = some v := by
  induction d with
  | nil => simp [dictContains, dictFind?] at h
  | cons x rest ih =>
    obtain ⟨k', w⟩ := x
    by_cases hk : k' = k
    · subst hk
      simp only [List.map_cons, eq_self_iff_true, if_true]
      simp [dictFind?]
    · have h' : dictContains rest k = true := by
        simpa [dictContains, dictFind?, hk] using h
      simp only [List.map_cons, if_neg hk]
      simpa [dictFind?, hk] using ih h'

theorem dictFind?_dictSet_self (d : List (K × V)) (k : K) (v : V) :
    dictFind? (dictSet d k v) k = some v := by
  unfold dictSet
  by_cases h : dictContains d k = true
  · rw [if_pos h]
    exact dictFind?_map_replace v h
  · rw [if_neg h]
    have hn : dictFind? d k = none := by
      by_contra hc
      exact h (by simpa [dictContains, Option.isSome] using
        Option.ne_none_iff_isSome.mp hc)
    rw [dictFind?_append_of_none hn]
    simp [dictFind?]

theorem dictSet_length_of_contains {d : List (K × V)} {k : K} (v : V)
    (h : dictContains d k = true) : (dictSet d k v).length = d.length := by
  simp [dictSet, h]

theorem dictSet_length_of_not_contains {d : List (K × V)} {k : K} (v : V)
    (h : dictContains d k = false) : (dictSet d k v).length = d.length + 1 := by
  simp [dictSet, h]

/-! ## Eviction-loop lemmas -/

theorem evictOldest_fst (c : List (K × String)) (f : List (K × F)) (m : Nat) :
    (evictOldest c f m).1 = c.drop (c.length - m) := by
  induction c generalizing f with
  | nil => simp [evictOldest]
  | cons x rest ih =>
    obtain ⟨k, v⟩ := x
    simp only [evictOldest]
    by_cases h : ((k, v) :: rest).length ≤ m
    · rw [if_pos h, Nat.sub_eq_zero_of_le h, List.drop_zero]
    · rw [if_neg h, ih]
      have h1 : ((k, v) :: rest).length - m = (rest.length - m) + 1 := by
        simp only [List.length_cons] at h ⊢
        omega
      rw [h1, List.drop_succ_cons]

theorem evictOldest_fst_length (c : List (K × String)) (f : List (K × F)) (m : Nat) :
    (evictOldest c f m).1.length = min c.length m := by
  rw [evictOldest_fst]
  simp [List.length_drop]
  omega

/-! ## Projections of `enforceSizeLimit` and `TranscriptionCache.set` -/

theorem enforceSizeLimit_cache (st : CacheState K F) :
    (enforceSizeLimit st).cache =
      (evictOldest st.cache st.audio_fingerprint_cache st.max_size).1 := by
  unfold enforceSizeLimit
  dsimp only
  split <;> rfl

theorem enforceSizeLimit_fps (st : CacheState K F) :
    (enforceSizeLimit st).audio_fingerprint_cache =
      (evictOldest st.cache st.audio_fingerprint_cache st.max_size).2 := by
  unfold enforceSizeLimit
  dsimp only
  split <;> rfl

theorem enforceSizeLimit_stats (st : CacheState K F) :
    (enforceSizeLimit st).max_size = st.max_size ∧
    (enforceSizeLimit st).similarity_threshold = st.similarity_threshold ∧
    (enforceSizeLimit st).cache_hits = st.cache_hits ∧
    (enforceSizeLimit st).audio_hits = st.audio_hits ∧
    (enforceSizeLimit st).total_lookups = st.total_lookups := by
  unfold enforceSizeLimit
  dsimp only
  split <;> exact ⟨rfl, rfl, rfl, rfl, rfl⟩

end GenieWhisper

namespace GenieWhisper

section CacheTheorems

variable {A K F : Type} [DecidableEq K]
variable (hashA : A → K) (hashT : String → K) (fpA : A → F)
variable (simA : F → F → ℚ) (simT : String → String → ℚ)

theorem set_cache (st : CacheState K F) (a : A) (t : String) :
    (TranscriptionCache.set hashA hashT fpA st a t).cache =
      (evictOldest (dictSet st.cache (hashA a) t)
        (dictSet st.audio_fingerprint_cache (hashA a) (fpA a)) st.max_size).1 := by
  unfold TranscriptionCache.set
  dsimp only
  split <;> rw [enforceSizeLimit_cache]

theorem set_fps (st : CacheState K F) (a : A) (t : String) :
    (TranscriptionCache.set hashA hashT fpA st a t).audio_fingerprint_cache =
      (evictOldest (dictSet st.cache (hashA a) t)
        (dictSet st.audio_fingerprint_cache (hashA a) (fpA a)) st.max_size).2 := by
  unfold TranscriptionCache.set
  dsimp only
  split <;> rw [enforceSizeLimit_fps]

theorem set_stats (st : CacheState K F) (a : A) (t : String) :
    (TranscriptionCache.set hashA hashT fpA st a t).max_size = st.max_size ∧
    (TranscriptionCache.set hashA hashT fpA st a t).similarity_threshold =
      st.similarity_threshold ∧
    (TranscriptionCache.set hashA hashT fpA st a t).cache_hits = st.cache_hits ∧
    (TranscriptionCache.set hashA hashT fpA st a t).audio_hits = st.audio_hits ∧
    (TranscriptionCache.set hashA hashT fpA st a t).total_lookups = st.total_lookups := by
  unfold TranscriptionCache.set
  dsimp only
  split <;> exact enforceSizeLimit_stats _

/-- After a `set`, the inserted text is found under the audio hash, provided
the cache respects its size bound and can hold at least one entry. -/
theorem dictFind?_set_cache (st : CacheState K F) (a : A) (t : String)
    (hmax : 1 ≤ st.max_size) (hwf : st.cache.length ≤ st.max_size) :
    dictFind? (TranscriptionCache.set hashA hashT fpA st a t).cache (hashA a) =
      some t := by
  rw [set_cache, evictOldest_fst]
  by_cases h : dictContains st.cache (hashA a) = true
  · rw [dictSet_length_of_contains _ h, Nat.sub_eq_zero_of_le hwf, List.drop_zero]
    exact dictFind?_dictSet_self _ _ _
  · have hb : dictContains st.cache (hashA a) = false := by
      simpa using h
    have hn : dictFind? st.cache (hashA a) = none := by
      rw [dictContains] at hb
      exact Option.not_isSome_iff_eq_none.mp (by simp [hb])
    have hset : dictSet st.cache (hashA a) t = st.cache ++ [(hashA a, t)] := by
      simp [dictSet, hb]
    rw [hset]
    have hlen : (st.cache ++ [(hashA a, t)]).length = st.cache.length + 1 := by
      simp
    rw [hlen]
    have hle : st.cache.length + 1 - st.max_size ≤ st.cache.length := by omega
    rw [List.drop_append_of_le_length hle]
    rw [dictFind?_append_of_none (dictFind?_drop_of_none hn _)]
    simp [dictFind?]

/-- C4: for every audio buffer and text, `TranscriptionCache.set(audio, text)`
followed immediately by `TranscriptionCache.get(audio)` returns exactly that
text via the exact-hash match path (the exact-hit counter is the one that
increments; the similarity-hit counter stays unchanged, so no similarity
computation is involved).  The hypotheses say the cache can hold at least one
entry and currently respects its size bound — both hold for every reachable
state of the default configuration (`max_size = 200`). -/
theorem c4_cache_round_trip (st : CacheState K F) (audio : A) (text : String)
    (hmax : 1 ≤ st.max_size) (hwf : st.cache.length ≤ st.max_size) :
    (TranscriptionCache.get hashA fpA simA
        (TranscriptionCache.set hashA hashT fpA st audio text) audio).1 =
      .ok (some text) ∧
    (TranscriptionCache.get hashA fpA simA
        (TranscriptionCache.set hashA hashT fpA st audio text) audio).2.cache_hits =
      (TranscriptionCache.set hashA hashT fpA st audio text).cache_hits + 1 ∧
    (TranscriptionCache.get hashA fpA simA
        (TranscriptionCache.set hashA hashT fpA st audio text) audio).2.audio_hits =
      (TranscriptionCache.set hashA hashT fpA st audio text).audio_hits := by
  have hfind := dictFind?_set_cache hashA hashT fpA st audio text hmax hwf
  unfold TranscriptionCache.get
  dsimp only
  rw [hfind]
  exact ⟨rfl, rfl, rfl⟩

/-- Witness for C4 at a concrete input: a fresh cache of capacity 5, audio
buffer `7` (hashes abstracted as the identity), text `"hi"`. -/
theorem c4_cache_round_trip_witness :
    (TranscriptionCache.get (A := Nat) (K := Nat) (F := Unit) id (fun _ => ())
        (fun _ _ => 0)
        (TranscriptionCache.set id (fun _ => 0) (fun _ => ())
          (initialCache (fun _ => 0) 5 (85/100)) 7 "hi") 7).1 =
      .ok (some "hi") :=
  (c4_cache_round_trip id (fun _ => 0) (fun _ => ()) (fun _ _ => 0)
    (initialCache (fun _ => 0) 5 (85/100)) 7 "hi" (by decide) (by decide)).1

theorem dictContains_eq_true_iff (d : List (K × String)) (k : K) :
    dictContains d k = true ↔ ∃ p ∈ d, p.1 = k := by
  rw [dictContains, dictFind?_eq_find?]
  simp [List.find?_isSome]

theorem dictContains_eq_false_iff (d : List (K × String)) (k : K) :
    dictContains d k = false ↔ ∀ p ∈ d, p.1 ≠ k := by
  rw [← Bool.not_eq_true, dictContains_eq_true_iff]
  push_neg
  rfl

theorem dictContainsF_eq_true_iff (d : List (K × F)) (k : K) :
    dictContains d k = true ↔ ∃ p ∈ d, p.1 = k := by
  rw [dictContains, dictFind?_eq_find?]
  simp [List.find?_isSome]

theorem dictContainsF_eq_false_iff (d : List (K × F)) (k : K) :
    dictContains d k = false ↔ ∀ p ∈ d, p.1 ≠ k := by
  rw [← Bool.not_eq_true, dictContainsF_eq_true_iff]
  push_neg
  rfl

theorem evictOldest_of_le {c : List (K × String)} {m : Nat} (f : List (K × F))
    (h : c.length ≤ m) : evictOldest c f m = (c, f) := by
  cases c with
  | nil => simp [evictOldest]
  | cons x rest =>
    obtain ⟨k, v⟩ := x
    simp only [evictOldest]
    rw [if_pos (by simpa using h)]

theorem evictOldest_snd (c : List (K × String)) (f : List (K × F)) (m : Nat) :
    (evictOldest c f m).2 =
      ((c.take (c.length - m)).map Prod.fst).foldl dictErase f := by
  induction c generalizing f with
  | nil => simp [evictOldest]
  | cons x rest ih =>
    obtain ⟨k, v⟩ := x
    simp only [evictOldest]
    by_cases h : ((k, v) :: rest).length ≤ m
    · rw [if_pos h, Nat.sub_eq_zero_of_le h]
      simp
    · rw [if_neg h, ih]
      have h1 : ((k, v) :: rest).length - m = (rest.length - m) + 1 := by
        simp only [List.length_cons] at h ⊢
        omega
      rw [h1, List.take_succ_cons]
      simp

/-- A `set` of a fresh key into a cache with spare room appends the entry to
the back of both the exact cache and the fingerprint cache. -/
theorem set_fresh_room (st : CacheState K F) (a : A) (t : String)
    (hc : dictContains st.cache (hashA a) = false)
    (hroom : st.cache.length + 1 ≤ st.max_size) :
    (TranscriptionCache.set hashA hashT fpA st a t).cache =
      st.cache ++ [(hashA a, t)] ∧
    (TranscriptionCache.set hashA hashT fpA st a t).audio_fingerprint_cache =
      dictSet st.audio_fingerprint_cache (hashA a) (fpA a) := by
  have hset : dictSet st.cache (hashA a) t = st.cache ++ [(hashA a, t)] := by
    simp [dictSet, hc]
  have hlen : (dictSet st.cache (hashA a) t).length ≤ st.max_size := by
    rw [hset]
    simpa using hroom
  constructor
  · rw [set_cache, evictOldest_of_le _ hlen, hset]
  · rw [set_fps, evictOldest_of_le _ hlen]

/-- A `set` of a fresh key into a cache exactly at capacity appends the new
entry and evicts the front (least recently used) entry, deleting its
fingerprint entry with it. -/
theorem set_fresh_full (st : CacheState K F) (a : A) (t : String)
    (x : K × String) (crest : List (K × String))
    (hcache : st.cache = x :: crest)
    (hc : dictContains st.cache (hashA a) = false)
    (hfull : st.cache.length = st.max_size) :
    (TranscriptionCache.set hashA hashT fpA st a t).cache =
      crest ++ [(hashA a, t)] ∧
    (TranscriptionCache.set hashA hashT fpA st a t).audio_fingerprint_cache =
      dictErase (dictSet st.audio_fingerprint_cache (hashA a) (fpA a)) x.1 := by
  have hset : dictSet st.cache (hashA a) t = st.cache ++ [(hashA a, t)] := by
    simp [dictSet, hc]
  have hlen : (dictSet st.cache (hashA a) t).length = st.max_size + 1 := by
    rw [hset]
    simpa using hfull
  have hdrop : (dictSet st.cache (hashA a) t).length - st.max_size = 1 := by omega
  constructor
  · rw [set_cache, evictOldest_fst, hdrop, hset, hcache]
    rfl
  · rw [set_fps, evictOldest_snd, hdrop, hset, hcache]
    rfl

/-- Filling a cache that has room for `pairs.length` more entries with fresh,
pairwise-distinct keys appends them all in order, to both the exact cache and
the fingerprint cache, without any eviction. -/
theorem dictSet_fresh {d : List (K × V)} {k : K} (v : V)
    (h : dictContains d k = false) : dictSet d k v = d ++ [(k, v)] := by
  simp [dictSet, h]

theorem foldSet_fill (st : CacheState K F) (pairs : List (A × String))
    (hroom : st.cache.length + pairs.length ≤ st.max_size)
    (hfresh : ∀ p ∈ pairs, dictContains st.cache (hashA p.1) = false)
    (hfreshF : ∀ p ∈ pairs,
      dictContains st.audio_fingerprint_cache (hashA p.1) = false)
    (hdist : (pairs.map (fun p => hashA p.1)).Pairwise (· ≠ ·)) :
    (pairs.foldl (fun s p => TranscriptionCache.set hashA hashT fpA s p.1 p.2) st).cache =
      st.cache ++ pairs.map (fun p => (hashA p.1, p.2)) ∧
    (pairs.foldl (fun s p => TranscriptionCache.set hashA hashT fpA s p.1 p.2)
        st).audio_fingerprint_cache =
      st.audio_fingerprint_cache ++ pairs.map (fun p => (hashA p.1, fpA p.1)) ∧
    (pairs.foldl (fun s p => TranscriptionCache.set hashA hashT fpA s p.1 p.2)
        st).max_size = st.max_size ∧
    (pairs.foldl (fun s p => TranscriptionCache.set hashA hashT fpA s p.1 p.2)
        st).similarity_threshold = st.similarity_threshold := by
  induction pairs generalizing st with
  | nil => simp
  | cons p ps ih =>
    have hc : dictContains st.cache (hashA p.1) = false :=
      hfresh p (List.mem_cons_self _ _)
    have hcF : dictContains st.audio_fingerprint_cache (hashA p.1) = false :=
      hfreshF p (List.mem_cons_self _ _)
    have hroomc : st.cache.length + 1 + ps.length ≤ st.max_size := by
      simp only [List.length_cons] at hroom
      omega
    have hroom1 : st.cache.length + 1 ≤ st.max_size := by omega
    obtain ⟨hcache1, hfps1⟩ := set_fresh_room hashA hashT fpA st p.1 p.2 hc hroom1
    rw [dictSet_fresh _ hcF] at hfps1
    have hstats := set_stats hashA hashT fpA st p.1 p.2
    set st1 := TranscriptionCache.set hashA hashT fpA st p.1 p.2 with hst1
    have hdist' : ∀ p' ∈ ps, hashA p.1 ≠ hashA p'.1 := by
      have := List.pairwise_cons.mp hdist
      intro p' hp'
      exact this.1 _ (List.mem_map_of_mem _ hp')
    have hout := ih st1 (by
        rw [hcache1, hstats.1]
        simpa using hroomc)
      (by
        intro p' hp'
        rw [dictContains_eq_false_iff, hcache1]
        intro q hq
        rcases List.mem_append.mp hq with hq | hq
        · exact (dictContains_eq_false_iff _ _).mp (hfresh p' (List.mem_cons_of_mem _ hp')) q hq
        · rcases List.mem_singleton.mp hq with rfl
          exact hdist' p' hp')
      (by
        intro p' hp'
        rw [dictContainsF_eq_false_iff, hfps1]
        intro q hq
        rcases List.mem_append.mp hq with hq | hq
        · exact (dictContainsF_eq_false_iff _ _).mp (hfreshF p' (List.mem_cons_of_mem _ hp')) q hq
        · rcases List.mem_singleton.mp hq with rfl
          exact hdist' p' hp')
      (List.pairwise_cons.mp (by simpa using hdist)).2
    refine ⟨?_, ?_, ?_, ?_⟩
    · rw [List.foldl_cons, ← hst1, hout.1, hcache1]
      simp
    · rw [List.foldl_cons, ← hst1, hout.2.1, hfps1]
      simp
    · rw [List.foldl_cons, ← hst1, hout.2.2.1, hstats.1]
    · rw [List.foldl_cons, ← hst1, hout.2.2.2, hstats.2.1]

theorem dictErase_append (d d' : List (K × V)) (k : K) :
    dictErase (d ++ d') k = dictErase d k ++ dictErase d' k := by
  simp [dictErase, List.filter_append]

theorem dictErase_of_forall_ne {d : List (K × V)} {k : K}
    (h : ∀ p ∈ d, p.1 ≠ k) : dictErase d k = d :=
  List.filter_eq_self.mpr (fun p hp => by simpa using h p hp)

theorem dictErase_cons_self (k : K) (v : V) (d : List (K × V)) :
    dictErase ((k, v) :: d) k = dictErase d k := by
  simp [dictErase]

theorem dictErase_cons_ne (x : K × V) (d : List (K × V)) (k : K)
    (h : x.1 ≠ k) : dictErase (x :: d) k = x :: dictErase d k := by
  simp [dictErase, h]

theorem dictMoveToEnd_front (x : K × V) (rest : List (K × V))
    (h : ∀ p ∈ rest, p.1 ≠ x.1) :
    dictMoveToEnd (x :: rest) x.1 = rest ++ [x] := by
  obtain ⟨k, v⟩ := x
  unfold dictMoveToEnd
  rw [show dictFind? ((k, v) :: rest) k = some v from by simp [dictFind?]]
  rw [show dictErase ((k, v) :: rest) k = rest from by
    rw [dictErase_cons_self]
    exact dictErase_of_forall_ne h]

/-- The state effect of an exact-hit `get`: the hit entry moves to the back
of the exact cache, the fingerprint cache is untouched. -/
theorem get_exact_hit_state (st : CacheState K F) (a : A) (t : String)
    (h : dictFind? st.cache (hashA a) = some t) :
    (TranscriptionCache.get hashA fpA simA st a).2.cache =
      dictMoveToEnd st.cache (hashA a) ∧
    (TranscriptionCache.get hashA fpA simA st a).2.audio_fingerprint_cache =
      st.audio_fingerprint_cache ∧
    (TranscriptionCache.get hashA fpA simA st a).2.max_size = st.max_size ∧
    (TranscriptionCache.get hashA fpA simA st a).2.similarity_threshold =
      st.similarity_threshold := by
  unfold TranscriptionCache.get
  dsimp only
  rw [h]
  exact ⟨rfl, rfl, rfl, rfl⟩

/-- C5: after every `set` the exact cache holds at most `max_size` entries
(first conjunct).  Inserting `max_size + 1` entries with pairwise-distinct
hashes into a fresh cache leaves exactly the last `max_size` of them: the
first-inserted (least recently used) entry is evicted together with its
fingerprint entry (second conjunct).  The eviction order respects
recency-of-use, not just insertion: filling a fresh cache to capacity,
touching the oldest entry with an exact-match `get` (which marks it most
recently used) and then inserting one more entry evicts the second-oldest
entry — the strict least-recently-used one — together with its fingerprint
entry, while the touched entry survives (third conjunct). -/
theorem c5_lru_eviction :
    (∀ (st : CacheState K F) (a : A) (t : String),
      (TranscriptionCache.set hashA hashT fpA st a t).cache.length ≤ st.max_size)
    ∧
    (∀ (thr : ℚ) (p0 : A × String) (ps : List (A × String)) (q : A) (tq : String),
      ((p0 :: ps ++ [(q, tq)]).map (fun p => hashA p.1)).Pairwise (· ≠ ·) →
      (TranscriptionCache.set hashA hashT fpA
          ((p0 :: ps).foldl (fun s p => TranscriptionCache.set hashA hashT fpA s p.1 p.2)
            (initialCache hashT (ps.length + 1) thr)) q tq).cache =
        ps.map (fun p => (hashA p.1, p.2)) ++ [(hashA q, tq)] ∧
      (TranscriptionCache.set hashA hashT fpA
          ((p0 :: ps).foldl (fun s p => TranscriptionCache.set hashA hashT fpA s p.1 p.2)
            (initialCache hashT (ps.length + 1) thr)) q tq).audio_fingerprint_cache =
        ps.map (fun p => (hashA p.1, fpA p.1)) ++ [(hashA q, fpA q)] ∧
      (TranscriptionCache.set hashA hashT fpA
          ((p0 :: ps).foldl (fun s p => TranscriptionCache.set hashA hashT fpA s p.1 p.2)
            (initialCache hashT (ps.length + 1) thr)) q tq).cache.length =
        ps.length + 1)
    ∧
    (∀ (thr : ℚ) (p0 r1 : A × String) (ps : List (A × String)) (q : A) (tq : String),
      ((p0 :: r1 :: ps ++ [(q, tq)]).map (fun p => hashA p.1)).Pairwise (· ≠ ·) →
      (TranscriptionCache.set hashA hashT fpA
          (TranscriptionCache.get hashA fpA simA
            ((p0 :: r1 :: ps).foldl
              (fun s p => TranscriptionCache.set hashA hashT fpA s p.1 p.2)
              (initialCache hashT (ps.length + 2) thr)) p0.1).2 q tq).cache =
        ps.map (fun p => (hashA p.1, p.2)) ++
          [(hashA p0.1, p0.2), (hashA q, tq)] ∧
      (TranscriptionCache.set hashA hashT fpA
          (TranscriptionCache.get hashA fpA simA
            ((p0 :: r1 :: ps).foldl
              (fun s p => TranscriptionCache.set hashA hashT fpA s p.1 p.2)
              (initialCache hashT (ps.length + 2) thr)) p0.1).2 q tq).audio_fingerprint_cache =
        (hashA p0.1, fpA p0.1) :: ps.map (fun p => (hashA p.1, fpA p.1)) ++
          [(hashA q, fpA q)]) := by
  refine ⟨?_, ?_, ?_⟩
  · intro st a t
    rw [set_cache, evictOldest_fst_length]
    exact Nat.min_le_right _ _
  · intro thr p0 ps q tq hdist
    have hsplit : (((p0 :: ps).map (fun p => hashA p.1)) ++ [hashA q]).Pairwise
        (· ≠ ·) := by
      simpa using hdist
    obtain ⟨hpw, -, hcross⟩ := List.pairwise_append.mp hsplit
    have hq_ne : ∀ p ∈ p0 :: ps, hashA p.1 ≠ hashA q := fun p hp =>
      hcross _ (List.mem_map_of_mem _ hp) _ (by simp)
    have hfill := foldSet_fill hashA hashT fpA
      (initialCache hashT (ps.length + 1) thr) (p0 :: ps)
      (by simp [initialCache])
      (by intro p hp; rfl)
      (by intro p hp; rfl)
      hpw
    set stF := (p0 :: ps).foldl
      (fun s p => TranscriptionCache.set hashA hashT fpA s p.1 p.2)
      (initialCache hashT (ps.length + 1) thr) with hstF
    obtain ⟨hcache, hfps, hmax, hthr⟩ := hfill
    simp only [initialCache, List.nil_append] at hcache hfps
    have hcq : dictContains stF.cache (hashA q) = false := by
      rw [dictContains_eq_false_iff, hcache]
      intro pr hpr
      obtain ⟨p, hp, rfl⟩ := List.mem_map.mp hpr
      exact hq_ne p hp
    have hfull : stF.cache.length = stF.max_size := by
      rw [hcache, hmax]
      simp [initialCache]
    obtain ⟨hc2, hf2⟩ := set_fresh_full hashA hashT fpA stF q tq
      (hashA p0.1, p0.2) (ps.map (fun p => (hashA p.1, p.2)))
      (by rw [hcache]; simp) hcq hfull
    have hcqF : dictContains stF.audio_fingerprint_cache (hashA q) = false := by
      rw [dictContainsF_eq_false_iff, hfps]
      intro pr hpr
      obtain ⟨p, hp, rfl⟩ := List.mem_map.mp hpr
      exact hq_ne p hp
    refine ⟨hc2, ?_, ?_⟩
    · rw [hf2, dictSet_fresh _ hcqF, hfps, List.map_cons, List.cons_append]
      have hhead : ((hashA p0.1, fpA p0.1) : K × F).1 = (hashA p0.1, p0.2).1 := rfl
      rw [show ((hashA p0.1, p0.2) : K × String).1 = hashA p0.1 from rfl]
      rw [dictErase_cons_self]
      refine dictErase_of_forall_ne ?_
      intro pr hpr
      rcases List.mem_append.mp hpr with hpr | hpr
      · obtain ⟨p, hp, rfl⟩ := List.mem_map.mp hpr
        have := (List.pairwise_cons.mp hpw).1 _
          (List.mem_map_of_mem (fun p => hashA p.1) hp)
        exact fun hcontra => this hcontra.symm
      · rcases List.mem_singleton.mp hpr with rfl
        exact fun hcontra => hq_ne p0 (by simp) hcontra.symm
    · rw [hc2]
      simp
  · intro thr p0 r1 ps q tq hdist
    have hsplit : (((p0 :: r1 :: ps).map (fun p => hashA p.1)) ++ [hashA q]).Pairwise
        (· ≠ ·) := by
      simpa using hdist
    obtain ⟨hpw, -, hcross⟩ := List.pairwise_append.mp hsplit
    have hq_ne : ∀ p ∈ p0 :: r1 :: ps, hashA p.1 ≠ hashA q := fun p hp =>
      hcross _ (List.mem_map_of_mem _ hp) _ (by simp)
    have hp0_ne : ∀ p ∈ r1 :: ps, hashA p0.1 ≠ hashA p.1 := by
      intro p hp
      exact (List.pairwise_cons.mp hpw).1 _ (List.mem_map_of_mem _ hp)
    have hr1_ne : ∀ p ∈ ps, hashA r1.1 ≠ hashA p.1 := by
      intro p hp
      have h1 := (List.pairwise_cons.mp hpw).2
      rw [List.map_cons] at h1
      exact (List.pairwise_cons.mp h1).1 _ (List.mem_map_of_mem _ hp)
    have hfill := foldSet_fill hashA hashT fpA
      (initialCache hashT (ps.length + 2) thr) (p0 :: r1 :: ps)
      (by simp [initialCache])
      (by intro p hp; rfl)
      (by intro p hp; rfl)
      hpw
    set st1 := (p0 :: r1 :: ps).foldl
      (fun s p => TranscriptionCache.set hashA hashT fpA s p.1 p.2)
      (initialCache hashT (ps.length + 2) thr) with hst1
    obtain ⟨hcache1, hfps1, hmax1, hthr1⟩ := hfill
    simp only [initialCache, List.nil_append] at hcache1 hfps1
    have hfind0 : dictFind? st1.cache (hashA p0.1) = some p0.2 := by
      rw [hcache1]
      simp [dictFind?]
    obtain ⟨hgc, hgf, hgm, hgt⟩ :=
      get_exact_hit_state hashA fpA simA st1 p0.1 p0.2 hfind0
    set st2 := (TranscriptionCache.get hashA fpA simA st1 p0.1).2 with hst2
    have hmove : st2.cache =
        (hashA r1.1, r1.2) :: (ps.map (fun p => (hashA p.1, p.2)) ++
          [(hashA p0.1, p0.2)]) := by
      rw [hgc, hcache1, List.map_cons]
      rw [dictMoveToEnd_front (hashA p0.1, p0.2) _ (by
        intro pr hpr
        obtain ⟨p, hp, rfl⟩ := List.mem_map.mp hpr
        exact fun hcontra => hp0_ne p hp hcontra.symm)]
      simp
    have hcq2 : dictContains st2.cache (hashA q) = false := by
      rw [dictContains_eq_false_iff, hmove]
      intro pr hpr
      rcases List.mem_cons.mp hpr with rfl | hpr
      · exact hq_ne r1 (by simp)
      rcases List.mem_append.mp hpr with hpr | hpr
      · obtain ⟨p, hp, rfl⟩ := List.mem_map.mp hpr
        exact hq_ne p (by simp [hp])
      · rcases List.mem_singleton.mp hpr with rfl
        exact hq_ne p0 (by simp)
    have hfull2 : st2.cache.length = st2.max_size := by
      rw [hmove, hgm, hmax1]
      simp [initialCache]
    obtain ⟨hc3, hf3⟩ := set_fresh_full hashA hashT fpA st2 q tq
      (hashA r1.1, r1.2) (ps.map (fun p => (hashA p.1, p.2)) ++ [(hashA p0.1, p0.2)])
      hmove hcq2 hfull2
    have hcqF2 : dictContains st2.audio_fingerprint_cache (hashA q) = false := by
      rw [hgf, dictContainsF_eq_false_iff, hfps1]
      intro pr hpr
      obtain ⟨p, hp, rfl⟩ := List.mem_map.mp hpr
      exact hq_ne p hp
    constructor
    · rw [hc3]
      simp
    · rw [hf3, dictSet_fresh _ hcqF2, hgf, hfps1, List.map_cons, List.map_cons]
      rw [show ((hashA r1.1, r1.2) : K × String).1 = hashA r1.1 from rfl]
      rw [List.cons_append, List.cons_append]
      rw [dictErase_cons_ne _ _ _ (hp0_ne r1 (by simp))]
      rw [dictErase_cons_self]
      rw [dictErase_of_forall_ne (by
        intro pr hpr
        rcases List.mem_append.mp hpr with hpr | hpr
        · obtain ⟨p, hp, rfl⟩ := List.mem_map.mp hpr
          exact fun hcontra => hr1_ne p hp hcontra.symm
        · rcases List.mem_singleton.mp hpr with rfl
          exact fun hcontra => hq_ne r1 (by simp) hcontra.symm)]
      simp

/-- Witness for C5 at a concrete input: capacity-2 cache, entries under keys
1 and 2, an exact `get` of key 1 (marking it most recently used), then a
third insert under key 3 — key 2 (the strict least recently used) is evicted
from both caches while key 1 survives. -/
theorem c5_lru_eviction_witness :
    (TranscriptionCache.set (A := ℕ) (K := ℕ) (F := ℕ) id (fun _ => 0) id
        (TranscriptionCache.get id id (fun _ _ => 0)
          (([((1 : ℕ), "a"), (2, "b")]).foldl
            (fun s p => TranscriptionCache.set id (fun _ => 0) id s p.1 p.2)
            (initialCache (fun _ => 0) 2 (17/20))) 1).2 3 "c").cache =
      [(1, "a"), (3, "c")] ∧
    (TranscriptionCache.set (A := ℕ) (K := ℕ) (F := ℕ) id (fun _ => 0) id
        (TranscriptionCache.get id id (fun _ _ => 0)
          (([((1 : ℕ), "a"), (2, "b")]).foldl
            (fun s p => TranscriptionCache.set id (fun _ => 0) id s p.1 p.2)
            (initialCache (fun _ => 0) 2 (17/20))) 1).2 3 "c").audio_fingerprint_cache =
      [(1, 1), (3, 3)] := by
  have h := (c5_lru_eviction (A := ℕ) (K := ℕ) (F := ℕ) id (fun _ => 0) id
    (fun _ _ => 0)).2.2 (17/20) (1, "a") (2, "b") [] 3 "c" (by decide)
  exact ⟨by simpa using h.1, by simpa using h.2⟩

theorem dictContains_iff_mem_keys {V : Type} (d : List (K × V)) (k : K) :
    dictContains d k = true ↔ k ∈ d.map Prod.fst := by
  rw [dictContains, dictFind?_eq_find?]
  simp [List.find?_isSome, List.mem_map]

theorem dictErase_map_fst {V : Type} (d : List (K × V)) (k : K) :
    (dictErase d k).map Prod.fst = (d.map Prod.fst).filter (fun x => x != k) := by
  induction d with
  | nil => rfl
  | cons x rest ih =>
    obtain ⟨k1, v1⟩ := x
    by_cases h : k1 = k
    · subst h
      rw [dictErase_cons_self, ih]
      simp [List.filter_cons]
    · rw [dictErase_cons_ne _ _ _ (by simpa using h)]
      simp only [List.map_cons, List.filter_cons]
      rw [ih]
      simp [h]

theorem dictSet_map_fst {V : Type} (d : List (K × V)) (k : K) (v : V) :
    (dictSet d k v).map Prod.fst =
      if dictContains d k then d.map Prod.fst else d.map Prod.fst ++ [k] := by
  unfold dictSet
  split
  · next h =>
    rw [List.map_map]
    refine List.map_congr_left ?_
    intro p hp
    by_cases hx : p.1 = k
    · simp [hx]
    · simp [hx]
  · next h =>
    simp

theorem dictMoveToEnd_keys_perm {V : Type} (d : List (K × V)) (k : K)
    (hnd : (d.map Prod.fst).Nodup) :
    ((dictMoveToEnd d k).map Prod.fst).Perm (d.map Prod.fst) := by
  unfold dictMoveToEnd
  cases hfind : dictFind? d k with
  | none => exact List.Perm.refl _
  | some v =>
    have hk : k ∈ d.map Prod.fst := by
      rw [← dictContains_iff_mem_keys]
      simp [dictContains, hfind]
    rw [List.map_append, dictErase_map_fst, ← List.Nodup.erase_eq_filter hnd k]
    have h1 : ((d.map Prod.fst).erase k ++ ([((k, v) : K × V)]).map Prod.fst) =
        ((d.map Prod.fst).erase k ++ [k]) := rfl
    rw [h1]
    exact (List.perm_append_singleton _ _).trans (List.perm_cons_erase hk).symm

theorem evictOldest_keys (c : List (K × String)) (f : List (K × F)) (m : Nat)
    (hnd : (c.map Prod.fst).Nodup)
    (hperm : (c.map Prod.fst).Perm (f.map Prod.fst)) :
    ((evictOldest c f m).1.map Prod.fst).Nodup ∧
    ((evictOldest c f m).1.map Prod.fst).Perm
      ((evictOldest c f m).2.map Prod.fst) := by
  induction c generalizing f with
  | nil => exact ⟨by simp [evictOldest], by simpa [evictOldest] using hperm⟩
  | cons x rest ih =>
    obtain ⟨k, v⟩ := x
    simp only [evictOldest]
    by_cases h : ((k, v) :: rest).length ≤ m
    · rw [if_pos h]
      exact ⟨hnd, hperm⟩
    · rw [if_neg h]
      simp only [List.map_cons, List.nodup_cons] at hnd
      have hk : k ∉ rest.map Prod.fst := hnd.1
      have hrest : (rest.map Prod.fst).Perm ((dictErase f k).map Prod.fst) := by
        rw [dictErase_map_fst]
        have h2 := hperm.filter (fun x => x != k)
        rw [List.map_cons] at h2
        rw [show ((k :: rest.map Prod.fst).filter (fun x => x != k)) =
            (rest.map Prod.fst).filter (fun x => x != k) from by
          simp [List.filter_cons]] at h2
        rw [List.filter_eq_self.mpr (fun b hb => by
          refine bne_iff_ne.mpr ?_
          intro hbk
          subst hbk
          exact hk hb)] at h2
        exact h2
      exact ih (dictErase f k) hnd.2 hrest

theorem dictContains_eq_of_keys_perm {V W : Type} (d : List (K × V))
    (e : List (K × W)) (hperm : (d.map Prod.fst).Perm (e.map Prod.fst)) (k : K) :
    dictContains d k = dictContains e k := by
  cases hc : dictContains e k with
  | true =>
    exact (dictContains_iff_mem_keys d k).mpr
      (hperm.mem_iff.mpr ((dictContains_iff_mem_keys e k).mp hc))
  | false =>
    rw [Bool.eq_false_iff]
    intro hcc
    have := hperm.mem_iff.mp ((dictContains_iff_mem_keys d k).mp hcc)
    rw [((dictContains_iff_mem_keys e k).mpr this)] at hc
    exact Bool.true_eq_false.mp hc

theorem set_keys_invariant (st : CacheState K F) (a : A) (t : String)
    (hnd : (st.cache.map Prod.fst).Nodup)
    (hperm : (st.cache.map Prod.fst).Perm
      (st.audio_fingerprint_cache.map Prod.fst)) :
    ((TranscriptionCache.set hashA hashT fpA st a t).cache.map Prod.fst).Nodup ∧
    ((TranscriptionCache.set hashA hashT fpA st a t).cache.map Prod.fst).Perm
      ((TranscriptionCache.set hashA hashT fpA st a t).audio_fingerprint_cache.map
        Prod.fst) := by
  rw [set_cache, set_fps]
  have hceq : dictContains st.cache (hashA a) =
      dictContains st.audio_fingerprint_cache (hashA a) :=
    dictContains_eq_of_keys_perm _ _ hperm _
  cases hc : dictContains st.cache (hashA a) with
  | true =>
    have hkc : (dictSet st.cache (hashA a) t).map Prod.fst = st.cache.map Prod.fst := by
      rw [dictSet_map_fst, if_pos hc]
    have hkf : (dictSet st.audio_fingerprint_cache (hashA a) (fpA a)).map Prod.fst =
        st.audio_fingerprint_cache.map Prod.fst := by
      rw [dictSet_map_fst, if_pos (hceq ▸ hc)]
    have := evictOldest_keys (dictSet st.cache (hashA a) t)
      (dictSet st.audio_fingerprint_cache (hashA a) (fpA a)) st.max_size
      (by rw [hkc]; exact hnd) (by rw [hkc, hkf]; exact hperm)
    exact this
  | false =>
    have hkc : (dictSet st.cache (hashA a) t).map Prod.fst =
        st.cache.map Prod.fst ++ [hashA a] := by
      rw [dictSet_map_fst, if_neg (by simp [hc])]
    have hkf : (dictSet st.audio_fingerprint_cache (hashA a) (fpA a)).map Prod.fst =
        st.audio_fingerprint_cache.map Prod.fst ++ [hashA a] := by
      rw [dictSet_map_fst, if_neg (by simp [hceq ▸ hc])]
    have hnotmem : hashA a ∉ st.cache.map Prod.fst := fun hm => by
      rw [(dictContains_iff_mem_keys st.cache (hashA a)).mpr hm] at hc
      exact Bool.true_eq_false.mp hc
    have := evictOldest_keys (dictSet st.cache (hashA a) t)
      (dictSet st.audio_fingerprint_cache (hashA a) (fpA a)) st.max_size
      (by
        rw [hkc]
        refine List.Nodup.append hnd (by simp) ?_
        intro x hx hx2
        rcases List.mem_singleton.mp hx2 with rfl
        exact hnotmem hx)
      (by
        rw [hkc, hkf]
        exact hperm.append_right [hashA a])
    exact this

theorem get_keys_invariant (st : CacheState K F) (a : A)
    (hnd : (st.cache.map Prod.fst).Nodup)
    (hperm : (st.cache.map Prod.fst).Perm
      (st.audio_fingerprint_cache.map Prod.fst)) :
    (((TranscriptionCache.get hashA fpA simA st a).2.cache.map Prod.fst).Nodup ∧
    ((TranscriptionCache.get hashA fpA simA st a).2.cache.map Prod.fst).Perm
      ((TranscriptionCache.get hashA fpA simA st a).2.audio_fingerprint_cache.map
        Prod.fst)) := by
  unfold TranscriptionCache.get
  dsimp only
  cases hfind : dictFind? st.cache (hashA a) with
  | some t =>
    dsimp only
    have hpm := dictMoveToEnd_keys_perm st.cache (hashA a) hnd
    exact ⟨(hpm.nodup_iff).mpr hnd, hpm.trans hperm⟩
  | none =>
    cases hf2 : st.audio_fingerprint_cache.find?
        (fun p => decide (st.similarity_threshold ≤ simA (fpA a) p.2)) with
    | some pr =>
      obtain ⟨k0, f0⟩ := pr
      dsimp only
      cases hf3 : dictFind? st.cache k0 with
      | some t => exact ⟨hnd, hperm⟩
      | none => exact ⟨hnd, hperm⟩
    | none => exact ⟨hnd, hperm⟩

theorem getByText_dicts (st : CacheState K F) (t : String) :
    (TranscriptionCache.getByText hashT simT st t).2.cache = st.cache ∧
    (TranscriptionCache.getByText hashT simT st t).2.audio_fingerprint_cache =
      st.audio_fingerprint_cache := by
  unfold TranscriptionCache.getByText
  dsimp only
  split
  · exact ⟨rfl, rfl⟩
  · split
    · exact ⟨rfl, rfl⟩
    · split
      · split
        · exact ⟨rfl, rfl⟩
        · exact ⟨rfl, rfl⟩
      · exact ⟨rfl, rfl⟩

theorem applyCacheOp_keys_invariant (st : CacheState K F) (op : CacheOp A)
    (hnd : (st.cache.map Prod.fst).Nodup)
    (hperm : (st.cache.map Prod.fst).Perm
      (st.audio_fingerprint_cache.map Prod.fst)) :
    (((applyCacheOp hashA hashT fpA simA simT st op).cache.map Prod.fst).Nodup ∧
    ((applyCacheOp hashA hashT fpA simA simT st op).cache.map Prod.fst).Perm
      ((applyCacheOp hashA hashT fpA simA simT st op).audio_fingerprint_cache.map
        Prod.fst)) := by
  cases op with
  | setOp audio text => exact set_keys_invariant hashA hashT fpA st audio text hnd hperm
  | getOp audio => exact get_keys_invariant hashA fpA simA st audio hnd hperm
  | getByTextOp text =>
    obtain ⟨h1, h2⟩ := getByText_dicts hashT simT st text
    rw [show applyCacheOp hashA hashT fpA simA simT st (.getByTextOp text) =
      (TranscriptionCache.getByText hashT simT st text).2 from rfl, h1, h2]
    exact ⟨hnd, hperm⟩
  | clearOp => exact ⟨by simp [applyCacheOp, TranscriptionCache.clear], by
      simp [applyCacheOp, TranscriptionCache.clear]⟩

theorem applyCacheOps_keys_invariant (ops : List (CacheOp A)) (st : CacheState K F)
    (hnd : (st.cache.map Prod.fst).Nodup)
    (hperm : (st.cache.map Prod.fst).Perm
      (st.audio_fingerprint_cache.map Prod.fst)) :
    (((applyCacheOps hashA hashT fpA simA simT st ops).cache.map Prod.fst).Nodup ∧
    ((applyCacheOps hashA hashT fpA simA simT st ops).cache.map Prod.fst).Perm
      ((applyCacheOps hashA hashT fpA simA simT st ops).audio_fingerprint_cache.map
        Prod.fst)) := by
  induction ops generalizing st with
  | nil => exact ⟨hnd, hperm⟩
  | cons op rest ih =>
    obtain ⟨h1, h2⟩ := applyCacheOp_keys_invariant hashA hashT fpA simA simT st op hnd hperm
    exact ih _ h1 h2

theorem get_no_keyerror (st : CacheState K F) (a : A)
    (hperm : (st.cache.map Prod.fst).Perm
      (st.audio_fingerprint_cache.map Prod.fst)) :
    (TranscriptionCache.get hashA fpA simA st a).1 ≠ Except.error () := by
  unfold TranscriptionCache.get
  dsimp only
  cases hfind : dictFind? st.cache (hashA a) with
  | some t => simp
  | none =>
    cases hf2 : st.audio_fingerprint_cache.find?
        (fun p => decide (st.similarity_threshold ≤ simA (fpA a) p.2)) with
    | some pr =>
      obtain ⟨k0, f0⟩ := pr
      dsimp only
      have hmem : (k0, f0) ∈ st.audio_fingerprint_cache := List.mem_of_find?_eq_some hf2
      have hk0 : k0 ∈ st.audio_fingerprint_cache.map Prod.fst :=
        List.mem_map_of_mem Prod.fst hmem
      have hkc : k0 ∈ st.cache.map Prod.fst := hperm.mem_iff.mpr hk0
      have hc := (dictContains_iff_mem_keys st.cache k0).mpr hkc
      rw [dictContains] at hc
      cases hf3 : dictFind? st.cache k0 with
      | some t => simp
      | none =>
        rw [hf3] at hc
        simp at hc
    | none => simp

/-- C10: starting from a fresh `TranscriptionCache`, after every sequence of
`set`, `get`, `get_by_text` and `clear` operations the key set of the exact
cache equals the key set of the audio fingerprint cache; consequently, when
the similarity scan of `get` accepts a stored fingerprint, the corresponding
exact-cache entry exists and the lookup never raises the `KeyError` of
`self.cache[stored_hash]` (server.py:697). -/
theorem c10_fingerprint_keys_aligned (ops : List (CacheOp A)) (maxSize : Nat)
    (thr : ℚ) (a : A) :
    (∀ k : K,
      dictContains
        (applyCacheOps hashA hashT fpA simA simT
          (initialCache hashT maxSize thr) ops).cache k =
      dictContains
        (applyCacheOps hashA hashT fpA simA simT
          (initialCache hashT maxSize thr) ops).audio_fingerprint_cache k) ∧
    (TranscriptionCache.get hashA fpA simA
      (applyCacheOps hashA hashT fpA simA simT
        (initialCache hashT maxSize thr) ops) a).1 ≠ Except.error () := by
  obtain ⟨hnd, hperm⟩ := applyCacheOps_keys_invariant hashA hashT fpA simA simT ops
    (initialCache hashT maxSize thr) (by simp [initialCache]) (by simp [initialCache])
  exact ⟨fun k => dictContains_eq_of_keys_perm _ _ hperm k,
    get_no_keyerror hashA fpA simA _ a hperm⟩

end CacheTheorems

end GenieWhisper

namespace GenieWhisper

section ServerTheorems

variable {K F : Type} [DecidableEq K]
variable (hashA : List ℚ → K) (hashT : String → K) (fpA : List ℚ → F)
variable (simA : F → F → ℚ) (simT : String → String → ℚ)
variable (modelText : List ℚ → String) (fmt : String → String)
variable (modelLoaded : Bool)

/-- State effect of `_process_accumulated_audio` on a nonempty accumulator:
the concatenated utterance is emitted for processing, then the accumulator is
cleared and `speech_active` reset (the `finally` block,
server.py:1539-1547). -/
theorem processAccumulatedAudio_state (st : ServerState K F)
    (h : st.accumulated_audio ≠ []) :
    (processAccumulatedAudio hashA hashT fpA simA simT modelText fmt modelLoaded
        st).emitted = st.emitted ++ [st.accumulated_audio.flatten] ∧
    (processAccumulatedAudio hashA hashT fpA simA simT modelText fmt modelLoaded
        st).accumulated_audio = [] ∧
    (processAccumulatedAudio hashA hashT fpA simA simT modelText fmt modelLoaded
        st).speech_active = false := by
  unfold processAccumulatedAudio
  rw [if_neg (by simpa [List.isEmpty_iff] using h)]
  dsimp only
  repeat' split
  all_goals exact ⟨rfl, rfl, rfl⟩

/-- A loop iteration that starts with `speech_active = false` emits nothing:
emission happens only through `_process_accumulated_audio`, which both the
frame path (the `elif self.speech_active` branch) and the empty-queue path
guard behind `speech_active`. -/
theorem loopStep_no_emit_of_inactive (st : ServerState K F)
    (h : st.speech_active = false) (now : ℚ) (chunk : Option (List ℚ))
    (vadCall : Except Unit Bool) (wakeHit : Bool) :
    (loopStep hashA hashT fpA simA simT modelText fmt modelLoaded
        st now chunk vadCall wakeHit).emitted = st.emitted := by
  unfold loopStep
  cases chunk with
  | some c =>
    dsimp only
    repeat' split
    all_goals first | rfl | simp_all
  | none =>
    dsimp only
    repeat' split
    all_goals first | rfl | simp_all

/-- From a state that is neither accumulating speech nor armed, an
empty-queue iteration changes nothing. -/
theorem loopStep_none_idle (st : ServerState K F)
    (hs : st.speech_active = false) (hw : st.wake_word_detected = false)
    (now : ℚ) (vadCall : Except Unit Bool) (wakeHit : Bool) :
    loopStep hashA hashT fpA simA simT modelText fmt modelLoaded
      st now none vadCall wakeHit = st := by
  unfold loopStep
  dsimp only
  repeat' split
  all_goals first | rfl | simp_all

/-- C2 (amended): there is no minimum-utterance-duration floor in
`_process_accumulated_audio` — every utterance with a nonempty accumulator,
no matter how short (the duration computed on server.py:1517 is only
logged), is emitted for processing (handed to
`WhisperTranscriber.transcribe`), and the state is then reset. -/
theorem c2_no_min_duration_floor (st : ServerState K F)
    (h : st.accumulated_audio ≠ []) :
    (processAccumulatedAudio hashA hashT fpA simA simT modelText fmt modelLoaded
        st).emitted = st.emitted ++ [st.accumulated_audio.flatten] ∧
    (processAccumulatedAudio hashA hashT fpA simA simT modelText fmt modelLoaded
        st).accumulated_audio = [] ∧
    (processAccumulatedAudio hashA hashT fpA simA simT modelText fmt modelLoaded
        st).speech_active = false :=
  processAccumulatedAudio_state hashA hashT fpA simA simT modelText fmt
    modelLoaded st h

/-- Witness for the amended C2 at a concrete input: a single accumulated
chunk of one sample (1/16000 s of audio). -/
theorem c2_no_min_duration_floor_witness :
    (processAccumulatedAudio (K := Nat) (F := Unit) (fun _ => 0) (fun _ => 1)
        (fun _ => ()) (fun _ _ => 0) (fun _ _ => 0) (fun _ => "hello") id true
        { exampleServerState with
            speech_active := true
            accumulated_audio := [[1/2]] }).emitted =
      [] ++ [[(1 : ℚ)/2]] :=
  (c2_no_min_duration_floor (fun _ => 0) (fun _ => 1) (fun _ => ())
    (fun _ _ => 0) (fun _ _ => 0) (fun _ => "hello") id true
    { exampleServerState with
        speech_active := true
        accumulated_audio := [[1/2]] }
    (by decide)).1

/-- Counterexample to C2 as stated: an accumulated utterance of a single
sample — duration 1/16000 s, far below the claimed 0.5 s floor — is
transcribed (the external model is invoked), dispatched as a final
transcription, and inserted into the transcriber's cache by the miss path of
`WhisperTranscriber.transcribe` (server.py:1067).  (The dispatch-level insert
on server.py:1535 contributes nothing: it raises `AttributeError`, caught on
line 1537.) -/
theorem c2_no_min_duration_floor_cex :
    ((({ exampleServerState with
          speech_active := true
          accumulated_audio := [[1/2]] } : ServerState Nat Unit).accumulated_audio.flatten.length : ℚ) /
        ({ exampleServerState with
            speech_active := true
            accumulated_audio := [[1/2]] } : ServerState Nat Unit).sample_rate < 1/2) ∧
    (processAccumulatedAudio (K := Nat) (F := Unit) (fun _ => 0) (fun _ => 1)
        (fun _ => ()) (fun _ _ => 0) (fun _ _ => 0) (fun _ => "hello") id true
        { exampleServerState with
            speech_active := true
            accumulated_audio := [[1/2]] }).model_calls = 1 ∧
    (processAccumulatedAudio (K := Nat) (F := Unit) (fun _ => 0) (fun _ => 1)
        (fun _ => ()) (fun _ _ => 0) (fun _ _ => 0) (fun _ => "hello") id true
        { exampleServerState with
            speech_active := true
            accumulated_audio := [[1/2]] }).messages =
      [ServerMsg.transcriptionFinal "hello"] ∧
    dictContains (processAccumulatedAudio (K := Nat) (F := Unit) (fun _ => 0)
        (fun _ => 1) (fun _ => ()) (fun _ _ => 0) (fun _ _ => 0)
        (fun _ => "hello") id true
        { exampleServerState with
            speech_active := true
            accumulated_audio := [[1/2]] }).cache.cache 0 =
      true := by
  refine ⟨by norm_num [exampleServerState], ?_, ?_, ?_⟩ <;> decide

/-- C1: a SpeechDetector exception while classifying a frame is fail-open.
`SileroVAD.is_speech` catches the classifier exception internally and returns
`True` (vad.py:133-135), so the loop's VAD call yields is-speech=true and the
frame is accumulated as potential speech, `speech_active` is raised and the
loop continues with a well-defined state — the frame is never dropped.  (The
loop-side handler at server.py:1450-1454, which would default to non-speech,
is unreachable for this detector because `is_speech` never raises.) -/
theorem c1_vad_fail_open (st : ServerState K F) (now : ℚ) (c : List ℚ)
    (wakeHit : Bool)
    (hvad : st.use_vad = true) (hav : st.vad_available = true)
    (hmode : st.activation_mode = .wake_word → st.wake_word_detected = true) :
    SileroVAD.isSpeech true (.error ()) = true ∧
    loopStep hashA hashT fpA simA simT modelText fmt modelLoaded st now (some c)
        (.ok (SileroVAD.isSpeech true (.error ()))) wakeHit =
      { st with speech_active := true,
                accumulated_audio := st.accumulated_audio ++ [c],
                last_speech_time := now } := by
  refine ⟨rfl, ?_⟩
  unfold loopStep
  dsimp only
  rw [if_neg (show ¬(st.activation_mode = .wake_word ∧ (!st.wake_word_detected) = true) by
    rintro ⟨hm, hd⟩
    rw [hmode hm] at hd
    simp at hd)]
  simp [hvad, hav, SileroVAD.isSpeech]

/-- Witness for C1 at a concrete input: the default manual-mode state, a
one-sample frame, the classifier raising. -/
theorem c1_vad_fail_open_witness :
    loopStep (K := Nat) (F := Unit) (fun _ => 0) (fun _ => 1) (fun _ => ())
        (fun _ _ => 0) (fun _ _ => 0) (fun _ => "hello") id true
        exampleServerState 1 (some [1/2])
        (.ok (SileroVAD.isSpeech true (.error ()))) false =
      { exampleServerState with
          speech_active := true,
          accumulated_audio := exampleServerState.accumulated_audio ++ [[1/2]],
          last_speech_time := 1 } :=
  (c1_vad_fail_open (fun _ => 0) (fun _ => 1) (fun _ => ()) (fun _ _ => 0)
    (fun _ _ => 0) (fun _ => "hello") id true exampleServerState 1 [1/2] false
    (by decide) (by decide) (by decide)).2

/-- C3: with `speech_active = true`, once the elapsed wall-clock time since
the last speech frame exceeds `silence_threshold_ms / 1000` — whether
observed on an arriving non-speech frame or on a poll where no frame arrived
(source stall) — the iteration emits the accumulated audio for processing
exactly once, and afterwards `speech_active = false` and the accumulator is
empty; no iteration starting with `speech_active = false` emits anything, so
the emission happens exactly once until speech resumes. -/
theorem c3_silence_triggers_emission (st : ServerState K F) (now : ℚ)
    (c : List ℚ) (vadCall : Except Unit Bool) (wakeHit : Bool)
    (hact : st.speech_active = true)
    (hacc : st.accumulated_audio ≠ [])
    (hvad : st.use_vad = true) (hav : st.vad_available = true)
    (hmode : st.activation_mode = .wake_word → st.wake_word_detected = true)
    (helapsed : st.silence_threshold_ms / 1000 < now - st.last_speech_time) :
    ((loopStep hashA hashT fpA simA simT modelText fmt modelLoaded st now
        (some c) (.ok false) wakeHit).emitted =
      st.emitted ++ [(st.accumulated_audio ++ [c]).flatten] ∧
     (loopStep hashA hashT fpA simA simT modelText fmt modelLoaded st now
        (some c) (.ok false) wakeHit).speech_active = false ∧
     (loopStep hashA hashT fpA simA simT modelText fmt modelLoaded st now
        (some c) (.ok false) wakeHit).accumulated_audio = []) ∧
    ((loopStep hashA hashT fpA simA simT modelText fmt modelLoaded st now
        none vadCall wakeHit).emitted =
      st.emitted ++ [st.accumulated_audio.flatten] ∧
     (loopStep hashA hashT fpA simA simT modelText fmt modelLoaded st now
        none vadCall wakeHit).speech_active = false ∧
     (loopStep hashA hashT fpA simA simT modelText fmt modelLoaded st now
        none vadCall wakeHit).accumulated_audio = []) ∧
    (∀ (st' : ServerState K F), st'.speech_active = false →
      ∀ (now' : ℚ) (chunk : Option (List ℚ)) (v' : Except Unit Bool) (w' : Bool),
        (loopStep hashA hashT fpA simA simT modelText fmt modelLoaded st' now'
          chunk v' w').emitted = st'.emitted) := by
  refine ⟨?_, ?_, ?_⟩
  · have hstep : loopStep hashA hashT fpA simA simT modelText fmt modelLoaded st
        now (some c) (.ok false) wakeHit =
        processAccumulatedAudio hashA hashT fpA simA simT modelText fmt
          modelLoaded { st with accumulated_audio := st.accumulated_audio ++ [c] } := by
      unfold loopStep
      dsimp only
      rw [if_neg (show ¬(st.activation_mode = .wake_word ∧
          (!st.wake_word_detected) = true) by
        rintro ⟨hm, hd⟩
        rw [hmode hm] at hd
        simp at hd)]
      simp [hvad, hav, hact, helapsed]
    rw [hstep]
    have h2 := processAccumulatedAudio_state hashA hashT fpA simA simT modelText
      fmt modelLoaded { st with accumulated_audio := st.accumulated_audio ++ [c] }
      (by simp)
    exact ⟨by simpa using h2.1, by simpa using h2.2.2, by simpa using h2.2.1⟩
  · have hstep : loopStep hashA hashT fpA simA simT modelText fmt modelLoaded st
        now none vadCall wakeHit =
        (let st1 := processAccumulatedAudio hashA hashT fpA simA simT modelText fmt
          modelLoaded st
        if st1.activation_mode = .wake_word ∧ st1.wake_word_detected = true ∧
            (!st1.speech_active) = true ∧
            st1.wake_word_timeout_ms / 1000 < now - st1.speech_started_time then
          { st1 with wake_word_detected := false,
                     messages := st1.messages ++ [.listeningForWakeWord] }
        else st1) := by
      unfold loopStep
      dsimp only
      rw [if_pos (show st.speech_active = true ∧
          st.silence_threshold_ms / 1000 < now - st.last_speech_time from
          ⟨hact, helapsed⟩)]
    rw [hstep]
    have h2 := processAccumulatedAudio_state hashA hashT fpA simA simT modelText
      fmt modelLoaded st hacc
    dsimp only
    split <;> exact ⟨h2.1, h2.2.2, h2.2.1⟩
  · intro st' h' now' chunk v' w'
    exact loopStep_no_emit_of_inactive hashA hashT fpA simA simT modelText fmt
      modelLoaded st' h' now' chunk v' w'

/-- Witness for C3 at a concrete input: active speech with one accumulated
chunk, last speech at t=0, a poll at t=2 s (beyond the 1000 ms threshold). -/
theorem c3_silence_triggers_emission_witness :
    (loopStep (K := Nat) (F := Unit) (fun _ => 0) (fun _ => 1) (fun _ => ())
        (fun _ _ => 0) (fun _ _ => 0) (fun _ => "hello") id true
        { exampleServerState with
            speech_active := true
            accumulated_audio := [[1/2]] } 2 none (.ok false) false).emitted =
      ({ exampleServerState with
          speech_active := true
          accumulated_audio := [[1/2]] } : ServerState Nat Unit).emitted ++
        [({ exampleServerState with
            speech_active := true
            accumulated_audio := [[1/2]] } : ServerState Nat Unit).accumulated_audio.flatten] :=
  ((c3_silence_triggers_emission (fun _ => 0) (fun _ => 1) (fun _ => ())
    (fun _ _ => 0) (fun _ _ => 0) (fun _ => "hello") id true
    { exampleServerState with
        speech_active := true
        accumulated_audio := [[1/2]] } 2 [] (.ok false) false
    (by decide) (by decide) (by decide) (by decide) (by decide)
    (by norm_num [exampleServerState])).2.1).1

/-- C8 (amended): in wake-word mode, when the gate is armed, no speech is
active and the wall-clock time since arming exceeds the wake-word timeout,
the first iteration *that polls an empty queue* resets the gate to Idle and
sends exactly one `listening_for_wake_word` notification; a further
empty-queue iteration changes nothing (no duplicate).  The timeout check
lives only in the empty-queue branch (server.py:1480-1491): iterations in
which a frame arrives do not perform it. -/
theorem c8_wake_timeout_idle_once (st : ServerState K F) (now : ℚ)
    (vadCall : Except Unit Bool) (wakeHit : Bool)
    (hmode : st.activation_mode = .wake_word)
    (harmed : st.wake_word_detected = true)
    (hinactive : st.speech_active = false)
    (helapsed : st.wake_word_timeout_ms / 1000 < now - st.speech_started_time) :
    loopStep hashA hashT fpA simA simT modelText fmt modelLoaded st now none
        vadCall wakeHit =
      { st with wake_word_detected := false,
                messages := st.messages ++ [ServerMsg.listeningForWakeWord] } ∧
    (∀ (now' : ℚ) (v' : Except Unit Bool) (w' : Bool),
      loopStep hashA hashT fpA simA simT modelText fmt modelLoaded
        { st with wake_word_detected := false,
                  messages := st.messages ++ [ServerMsg.listeningForWakeWord] }
        now' none v' w' =
      { st with wake_word_detected := false,
                messages := st.messages ++ [ServerMsg.listeningForWakeWord] }) := by
  constructor
  · unfold loopStep
    dsimp only
    rw [if_neg (show ¬(st.speech_active = true ∧
        st.silence_threshold_ms / 1000 < now - st.last_speech_time) by
      rintro ⟨ha, -⟩
      rw [hinactive] at ha
      exact Bool.false_ne_true ha)]
    rw [if_pos (show st.activation_mode = .wake_word ∧
        st.wake_word_detected = true ∧ (!st.speech_active) = true ∧
        st.wake_word_timeout_ms / 1000 < now - st.speech_started_time from
        ⟨hmode, harmed, by simp [hinactive], helapsed⟩)]
  · intro now' v' w'
    exact loopStep_none_idle hashA hashT fpA simA simT modelText fmt modelLoaded
      _ (by simp [hinactive]) (by simp) now' v' w'

/-- Witness for the amended C8 at a concrete input: armed at t=0, empty-queue
poll at t=6 s (beyond the 5000 ms timeout). -/
theorem c8_wake_timeout_idle_once_witness :
    loopStep (K := Nat) (F := Unit) (fun _ => 0) (fun _ => 1) (fun _ => ())
        (fun _ _ => 0) (fun _ _ => 0) (fun _ => "hello") id true
        { exampleServerState with
            activation_mode := .wake_word
            wake_word_detected := true } 6 none (.ok false) false =
      { ({ exampleServerState with
            activation_mode := .wake_word
            wake_word_detected := true } : ServerState Nat Unit) with
          wake_word_detected := false,
          messages := ({ exampleServerState with
              activation_mode := .wake_word
              wake_word_detected := true } : ServerState Nat Unit).messages ++
            [ServerMsg.listeningForWakeWord] } :=
  (c8_wake_timeout_idle_once (fun _ => 0) (fun _ => 1) (fun _ => ())
    (fun _ _ => 0) (fun _ _ => 0) (fun _ => "hello") id true
    { exampleServerState with
        activation_mode := .wake_word
        wake_word_detected := true } 6 (.ok false) false
    (by decide) (by decide) (by decide) (by norm_num [exampleServerState])).1

/-- Counterexample to C8 as stated: with the gate armed at t=0, no speech
active and a frame *arriving* at t=6 s (well beyond the 5000 ms timeout), the
iteration performs no timeout check: the gate stays armed and no
`listening_for_wake_word` notification is sent — the Idle transition is not
performed "regardless of whether frames keep arriving". -/
theorem c8_wake_timeout_cex :
    (({ exampleServerState with
        activation_mode := .wake_word
        wake_word_detected := true } : ServerState Nat Unit).wake_word_timeout_ms
        / 1000 < 6 - ({ exampleServerState with
        activation_mode := .wake_word
        wake_word_detected := true } : ServerState Nat Unit).speech_started_time) ∧
    (loopStep (K := Nat) (F := Unit) (fun _ => 0) (fun _ => 1) (fun _ => ())
        (fun _ _ => 0) (fun _ _ => 0) (fun _ => "hello") id true
        { exampleServerState with
            activation_mode := .wake_word
            wake_word_detected := true } 6 (some [1/2]) (.ok false)
        false).wake_word_detected = true ∧
    (loopStep (K := Nat) (F := Unit) (fun _ => 0) (fun _ => 1) (fun _ => ())
        (fun _ _ => 0) (fun _ _ => 0) (fun _ => "hello") id true
        { exampleServerState with
            activation_mode := .wake_word
            wake_word_detected := true } 6 (some [1/2]) (.ok false)
        false).messages = [] := by
  refine ⟨by norm_num [exampleServerState], by decide, by decide⟩

/-- C7 (amended): when the cache lookup returns a hit with a *non-empty*
transcript, `WhisperTranscriber.transcribe` returns the cached text (run
through the text formatter) immediately, without invoking the external
model.  (A hit whose stored transcript is the empty string does not take
this path: `if cached_text:` is false for `""`, see the counterexample.) -/
theorem c7_cache_hit_skips_model (st : CacheState K F) (audio : List ℚ)
    (t : String) (hne : audio.length ≠ 0)
    (hhit : (TranscriptionCache.get hashA fpA simA st audio).1 =
      Except.ok (some t))
    (ht : t ≠ "") :
    WhisperTranscriber.transcribe hashA hashT fpA simA simT modelText fmt true
        st audio =
      (fmt t, (TranscriptionCache.get hashA fpA simA st audio).2, false) := by
  have hp : TranscriptionCache.get hashA fpA simA st audio =
      (Except.ok (some t), (TranscriptionCache.get hashA fpA simA st audio).2) := by
    rw [← hhit]
  unfold WhisperTranscriber.transcribe
  rw [hp]
  simp [hne, ht]

/-- Witness for the amended C7 at a concrete input: a cache holding `"yo"`
for the buffer, a lookup hit, no model invocation. -/
theorem c7_cache_hit_skips_model_witness :
    WhisperTranscriber.transcribe (K := Nat) (F := Unit) (fun _ => 0)
        (fun _ => 1) (fun _ => ()) (fun _ _ => 0) (fun _ _ => 0)
        (fun _ => "model output") id true
        (TranscriptionCache.set (fun _ => 0) (fun _ => 1) (fun _ => ())
          (initialCache (fun _ => 1) 200 (17/20)) [1/2] "yo") [1/2] =
      (id "yo",
        (TranscriptionCache.get (fun _ => 0) (fun _ => ()) (fun _ _ => 0)
          (TranscriptionCache.set (fun _ => 0) (fun _ => 1) (fun _ => ())
            (initialCache (fun _ => 1) 200 (17/20)) [1/2] "yo") [1/2]).2,
        false) :=
  c7_cache_hit_skips_model (fun _ => 0) (fun _ => 1) (fun _ => ())
    (fun _ _ => 0) (fun _ _ => 0) (fun _ => "model output") id
    (TranscriptionCache.set (fun _ => 0) (fun _ => 1) (fun _ => ())
      (initialCache (fun _ => 1) 200 (17/20)) [1/2] "yo") [1/2] "yo"
    (by decide) (by rfl) (by decide)

/-- Counterexample to C7 as stated: a cache hit whose stored transcript is
the empty string does *not* return immediately — `if cached_text:`
(server.py:966) is false for `""`, so the external model is invoked. -/
theorem c7_empty_hit_invokes_model_cex :
    ((TranscriptionCache.get (K := Nat) (F := Unit) (fun _ => 0) (fun _ => ())
        (fun _ _ => 0)
        (TranscriptionCache.set (fun _ => 0) (fun _ => 1) (fun _ => ())
          (initialCache (fun _ => 1) 200 (17/20)) [1/2] "") [1/2]).1 =
      Except.ok (some "")) ∧
    (WhisperTranscriber.transcribe (K := Nat) (F := Unit) (fun _ => 0)
        (fun _ => 1) (fun _ => ()) (fun _ _ => 0) (fun _ _ => 0)
        (fun _ => "model output") id true
        (TranscriptionCache.set (fun _ => 0) (fun _ => 1) (fun _ => ())
          (initialCache (fun _ => 1) 200 (17/20)) [1/2] "") [1/2]).2.2 =
      true := by
  exact ⟨by rfl, by decide⟩

variable (sileroLoaded webrtcLoaded : Bool)
variable (sileroSegs webrtcSegs : List ℚ → List (Nat × Nat))
variable (sileroFiltered : List ℚ → List ℚ)

theorem vadGetSpeechSegments_none (b : Bool)
    (segs : List ℚ → List (Nat × Nat)) :
    vadGetSpeechSegments b segs none = .error () := by
  cases b <;> rfl

theorem sileroFilterAudio_none (b : Bool) (f : List ℚ → List ℚ) :
    SileroVAD.filterAudio b f none = none := by
  cases b <;> rfl

/-- C9 (code bug): `_stop_listening` never completes normally while
listening.  `AudioProcessor.stop_recording` returns `None` on its recording
path (server.py:232-246: only the not-recording branch returns an array), so
the local `audio` in `_stop_listening` is `None` and every subsequent path —
with or without VAD, for every VAD configuration — evaluates `len(None)` or
fails inside the VAD filter chain, raising a `TypeError`.  The state at the
raise has listening stopped and the stop status sent; the flush, the gate
reset and the final transcription never run inside this method. -/
theorem c9_stop_listening_raises (st : ServerState K F)
    (hl : st.is_listening = true) (hr : st.is_recording = true) :
    stopListening hashA hashT fpA simA simT modelText fmt modelLoaded
        sileroLoaded webrtcLoaded sileroSegs webrtcSegs sileroFiltered st =
      .error { st with is_listening := false, is_recording := false,
                       messages := st.messages ++
                         [ServerMsg.statusStoppedListening] } := by
  unfold stopListening
  rw [if_neg (by simp [hl])]
  dsimp only
  rw [show AudioProcessor.stopRecording st.is_recording = (false, none) from by
    simp [AudioProcessor.stopRecording, hr]]
  dsimp only
  cases huse : st.use_vad with
  | false =>
    rw [if_neg (show ¬(false = true) by simp)]
    rfl
  | true =>
    rw [if_pos (rfl : (true : Bool) = true)]
    cases hsetup : st.vad_setup with
    | both =>
      simp [AudioProcessor.filterAudio, hsetup, vadGetSpeechSegments_none]
    | single =>
      simp [AudioProcessor.filterAudio, hsetup, sileroFilterAudio_none, pyLen]
    | noVad =>
      simp [AudioProcessor.filterAudio, hsetup, pyLen]

/-- Witness for C9 at a concrete input: the default listening state. -/
theorem c9_stop_listening_raises_witness :
    stopListening (K := Nat) (F := Unit) (fun _ => 0) (fun _ => 1) (fun _ => ())
        (fun _ _ => 0) (fun _ _ => 0) (fun _ => "hello") id true true true
        (fun _ => []) (fun _ => []) (fun _ => []) exampleServerState =
      .error { exampleServerState with
                 is_listening := false, is_recording := false,
                 messages := exampleServerState.messages ++
                   [ServerMsg.statusStoppedListening] } :=
  c9_stop_listening_raises (fun _ => 0) (fun _ => 1) (fun _ => ())
    (fun _ _ => 0) (fun _ _ => 0) (fun _ => "hello") id true true true
    (fun _ => []) (fun _ => []) (fun _ => []) exampleServerState
    (by decide) (by decide)

end ServerTheorems

end GenieWhisper

namespace GenieWhisper

/-! ## Feature algebra for the similarity analysis (C6) -/

theorem sum_map_mul_left (c : ℚ) (f : ℚ → ℚ) (l : List ℚ) :
    (l.map (fun x => c * f x)).sum = c * (l.map f).sum := by
  induction l with
  | nil => simp
  | cons x xs ih =>
    simp [ih]
    ring

theorem sumQ_map_mul (c : ℚ) (l : List ℚ) :
    (l.map (fun x => c * x)).sum = c * l.sum := by
  simpa using sum_map_mul_left c (fun x => x) l

theorem meanQ_map_mul (c : ℚ) (l : List ℚ) :
    meanQ (l.map (fun x => c * x)) = c * meanQ l := by
  unfold meanQ
  rw [sumQ_map_mul, List.length_map, mul_div_assoc]

theorem varQ_map_mul (c : ℚ) (l : List ℚ) :
    varQ (l.map (fun x => c * x)) = c ^ 2 * varQ l := by
  unfold varQ
  rw [meanQ_map_mul, List.map_map, List.length_map]
  have h1 : ((fun x => (x - c * meanQ l) ^ 2) ∘ (fun x => c * x)) =
      (fun x => c ^ 2 * (x - meanQ l) ^ 2) := by
    funext x
    simp only [Function.comp]
    ring
  rw [h1, sum_map_mul_left (c ^ 2) (fun x => (x - meanQ l) ^ 2) l, mul_div_assoc]

theorem energyQ_map_mul (c : ℚ) (l : List ℚ) :
    energyQ (l.map (fun x => c * x)) = c ^ 2 * energyQ l := by
  unfold energyQ
  rw [List.map_map]
  have h1 : ((fun x => x ^ 2) ∘ (fun x => c * x)) =
      (fun x => c ^ 2 * x ^ 2) := by
    funext x
    simp only [Function.comp]
    ring
  rw [h1, sum_map_mul_left]

theorem energyQ_nonneg (l : List ℚ) : 0 ≤ energyQ l := by
  unfold energyQ
  refine List.sum_nonneg ?_
  intro x hx
  obtain ⟨y, -, rfl⟩ := List.mem_map.mp hx
  positivity

theorem repeatAudio_length (m : Nat) (b : List ℚ) :
    (repeatAudio m b).length = m * b.length := by
  induction m with
  | zero => simp [repeatAudio]
  | succ n ih =>
    simp only [repeatAudio, List.replicate_succ, List.flatten_cons,
      List.length_append] at ih ⊢
    rw [ih]
    ring

theorem repeatAudio_map_sum (m : Nat) (b : List ℚ) (f : ℚ → ℚ) :
    ((repeatAudio m b).map f).sum = m * ((b.map f).sum) := by
  induction m with
  | zero => simp [repeatAudio]
  | succ n ih =>
    simp only [repeatAudio, List.replicate_succ, List.flatten_cons,
      List.map_append, List.sum_append] at ih ⊢
    rw [ih]
    push_cast
    ring

theorem repeatAudio_sum (m : Nat) (b : List ℚ) :
    (repeatAudio m b).sum = m * b.sum := by
  have := repeatAudio_map_sum m b (fun x => x)
  simpa using this

theorem meanQ_repeatAudio (m : Nat) (b : List ℚ) (hm : m ≠ 0) (hb : b ≠ []) :
    meanQ (repeatAudio m b) = meanQ b := by
  unfold meanQ
  rw [repeatAudio_sum, repeatAudio_length]
  push_cast
  rw [mul_div_mul_left]
  exact_mod_cast hm

theorem varQ_repeatAudio (m : Nat) (b : List ℚ) (hm : m ≠ 0) (hb : b ≠ []) :
    varQ (repeatAudio m b) = varQ b := by
  unfold varQ
  rw [meanQ_repeatAudio m b hm hb, repeatAudio_map_sum, repeatAudio_length]
  push_cast
  rw [mul_div_mul_left]
  exact_mod_cast hm

theorem energyQ_repeatAudio (m : Nat) (b : List ℚ) :
    energyQ (repeatAudio m b) = m * energyQ b := by
  unfold energyQ
  exact repeatAudio_map_sum m b (fun x => x ^ 2)

theorem altBuf_length (n : Nat) (a : ℚ) : (altBuf n a).length = 2 * n := by
  induction n with
  | zero => rfl
  | succ k ih =>
    simp only [altBuf, List.length_cons, ih]
    ring

theorem altBuf_sum (n : Nat) (a : ℚ) : (altBuf n a).sum = 0 := by
  induction n with
  | zero => rfl
  | succ k ih =>
    simp only [altBuf, List.sum_cons, ih]
    ring

theorem altBuf_sum_sq (n : Nat) (a : ℚ) :
    ((altBuf n a).map (fun x => x ^ 2)).sum = 2 * n * a ^ 2 := by
  induction n with
  | zero => simp [altBuf]
  | succ k ih =>
    simp only [altBuf, List.map_cons, List.sum_cons, ih]
    push_cast
    ring

theorem meanQ_altBuf (n : Nat) (a : ℚ) : meanQ (altBuf n a) = 0 := by
  unfold meanQ
  rw [altBuf_sum, zero_div]

theorem varQ_altBuf (n : Nat) (a : ℚ) (hn : n ≠ 0) :
    varQ (altBuf n a) = a ^ 2 := by
  unfold varQ
  rw [meanQ_altBuf]
  have h1 : ((altBuf n a).map (fun x => (x - 0) ^ 2)) =
      ((altBuf n a).map (fun x => x ^ 2)) := by
    simp
  rw [h1, altBuf_sum_sq, altBuf_length]
  push_cast
  rw [mul_comm ((2 : ℚ) * n) (a ^ 2), mul_div_assoc, div_self, mul_one]
  have : (n : ℚ) ≠ 0 := by exact_mod_cast hn
  positivity

theorem energyQ_altBuf (n : Nat) (a : ℚ) :
    energyQ (altBuf n a) = 2 * n * a ^ 2 := altBuf_sum_sq n a

/-! ## Bounds on `_calculate_audio_similarity` -/

theorem mean_sim_ge (m c : ℝ) (hc0 : 0 ≤ c) (hc1 : c ≤ 1) :
    c ≤ 1 - min 1 (|m - c * m| / max 0.01 (max |m| |c * m|)) := by
  have habs : |m - c * m| = (1 - c) * |m| := by
    rw [show m - c * m = (1 - c) * m by ring, abs_mul, abs_of_nonneg (by linarith)]
  have hcm : |c * m| = c * |m| := by
    rw [abs_mul, abs_of_nonneg hc0]
  have hmax : max |m| |c * m| = |m| := by
    rw [hcm]
    exact max_eq_left (by nlinarith [abs_nonneg m])
  rw [hmax, habs]
  have hD : (0 : ℝ) < max 0.01 |m| := lt_max_of_lt_left (by norm_num)
  have hmD : |m| ≤ max 0.01 |m| := le_max_right _ _
  have hratio : (1 - c) * |m| / max 0.01 |m| ≤ 1 - c := by
    rw [div_le_iff hD]
    nlinarith [abs_nonneg m]
  have := min_le_right 1 ((1 - c) * |m| / max 0.01 |m|)
  linarith

theorem std_sim_ge (s c : ℝ) (hs : 0 ≤ s) (hc0 : 0 ≤ c) (hc1 : c ≤ 1) :
    c ≤ 1 - min 1 (|s - c * s| / max 0.01 (max s (c * s))) := by
  have habs : |s - c * s| = (1 - c) * s := by
    rw [abs_of_nonneg (by nlinarith)]
    ring
  have hmax : max s (c * s) = s := max_eq_left (by nlinarith)
  rw [hmax, habs]
  have hD : (0 : ℝ) < max 0.01 s := lt_max_of_lt_left (by norm_num)
  have hsD : s ≤ max 0.01 s := le_max_right _ _
  have hratio : (1 - c) * s / max 0.01 s ≤ 1 - c := by
    rw [div_le_iff hD]
    nlinarith
  have := min_le_right 1 ((1 - c) * s / max 0.01 s)
  linarith

theorem energy_sim_eq (e c : ℝ) (he : (0.01 : ℝ) ≤ e) (hc0 : 0 ≤ c)
    (hc1 : c ≤ 1) :
    min e (c ^ 2 * e) / max 0.01 (max e (c ^ 2 * e)) = c ^ 2 := by
  have he0 : (0 : ℝ) < e := lt_of_lt_of_le (by norm_num) he
  have hcsq : c ^ 2 ≤ 1 := by nlinarith
  have hle : c ^ 2 * e ≤ e := by nlinarith
  rw [min_eq_right hle, max_eq_left hle, max_eq_right he]
  rw [mul_div_assoc, div_self (ne_of_gt he0), mul_one]

/-- Score bound used for the amended C6, first half: a fingerprint and its
amplitude-scaled version (same length, mean/std scaled by `c`, energy by
`c ^ 2`, same dominant frequency when present) with scaling factor in
[0.9, 1] and energy at or above the 0.01 floor score at least 0.85. -/
theorem calcSim_scaled_ge (f1 f2 : Fingerprint) (c : ℝ)
    (hL : f2.flength = f1.flength) (hLpos : 0 < f1.flength)
    (hm : f2.fmean = c * f1.fmean)
    (hs : f2.fstd = c * f1.fstd) (hs1 : 0 ≤ f1.fstd)
    (he : f2.fenergy = c ^ 2 * f1.fenergy) (he1 : (0.01 : ℝ) ≤ f1.fenergy)
    (hc1 : (9/10 : ℝ) ≤ c) (hc2 : c ≤ 1)
    (hp : f1.peak_freq = f2.peak_freq) :
    (85/100 : ℝ) ≤ calculateAudioSimilarity (some f1) (some f2) := by
  have hc0 : (0 : ℝ) ≤ c := by linarith
  unfold calculateAudioSimilarity
  dsimp only
  rw [hL, hm, hs, he, hp]
  have h1 : min f1.flength f1.flength / max f1.flength f1.flength = 1 := by
    rw [min_self, max_self, div_self (ne_of_gt hLpos)]
  rw [h1]
  have h2 := mean_sim_ge f1.fmean c hc0 hc2
  have h3 := std_sim_ge f1.fstd c hs1 hc0 hc2
  rw [energy_sim_eq f1.fenergy c he1 hc0 hc2]
  cases hpk : f2.peak_freq with
  | none =>
    dsimp only
    refine le_min (by norm_num) (le_max_of_le_right ?_)
    nlinarith [h2, h3, sq_nonneg (c - 9/10)]
  | some p =>
    dsimp only
    have hzero : |p - p| / max 1 (max p p) = 0 := by
      simp
    rw [hzero]
    have hmin0 : min (1 : ℝ) 0 = 0 := min_eq_right (by norm_num)
    rw [hmin0]
    refine le_min (by norm_num) (le_max_of_le_right ?_)
    nlinarith [h2, h3, sq_nonneg (c - 9/10)]

/-- Score bound used for the amended C6, second half: a fingerprint and the
one of its 10-fold repetition (10-fold length and energy, same mean and
standard deviation) score strictly below 0.85, whatever the dominant
frequencies are. -/
theorem calcSim_repeat_lt (f1 f2 : Fingerprint)
    (hL : f2.flength = 10 * f1.flength) (hLpos : 0 < f1.flength)
    (hm : f2.fmean = f1.fmean) (hs : f2.fstd = f1.fstd)
    (he : f2.fenergy = 10 * f1.fenergy) (he0 : 0 ≤ f1.fenergy) :
    calculateAudioSimilarity (some f1) (some f2) < 85/100 := by
  unfold calculateAudioSimilarity
  dsimp only
  rw [hL, hm, hs, he]
  have h1 : min f1.flength (10 * f1.flength) / max f1.flength (10 * f1.flength) =
      1 / 10 := by
    rw [min_eq_left (by linarith), max_eq_right (by linarith)]
    rw [div_eq_div_iff (by positivity) (by norm_num)]
    ring
  rw [h1]
  have h2 : |f1.fmean - f1.fmean| / max 0.01 (max |f1.fmean| |f1.fmean|) = 0 := by
    simp
  have h3 : |f1.fstd - f1.fstd| / max 0.01 (max f1.fstd f1.fstd) = 0 := by
    simp
  rw [h2, h3]
  have hmin0 : min (1 : ℝ) 0 = 0 := min_eq_right (by norm_num)
  rw [hmin0]
  have hD : (0 : ℝ) < max 0.01 (max f1.fenergy (10 * f1.fenergy)) :=
    lt_max_of_lt_left (by norm_num)
  have hes0 : 0 ≤ min f1.fenergy (10 * f1.fenergy) /
      max 0.01 (max f1.fenergy (10 * f1.fenergy)) := by
    apply div_nonneg _ (le_of_lt hD)
    exact le_min he0 (by linarith)
  have hes1 : min f1.fenergy (10 * f1.fenergy) /
      max 0.01 (max f1.fenergy (10 * f1.fenergy)) ≤ 1 / 10 := by
    rw [min_eq_left (by linarith), div_le_iff hD]
    have h10 : 10 * f1.fenergy ≤ max 0.01 (max f1.fenergy (10 * f1.fenergy)) :=
      le_trans (le_max_right _ _) (le_max_right _ _)
    linarith
  set es := min f1.fenergy (10 * f1.fenergy) /
      max 0.01 (max f1.fenergy (10 * f1.fenergy)) with hes
  cases hpk1 : f1.peak_freq with
  | none =>
    dsimp only
    refine lt_of_le_of_lt (min_le_right _ _) ?_
    refine max_lt (by norm_num) ?_
    linarith
  | some p1 =>
    cases hpk2 : f2.peak_freq with
    | none =>
      dsimp only
      refine lt_of_le_of_lt (min_le_right _ _) ?_
      refine max_lt (by norm_num) ?_
      linarith
    | some p2 =>
      dsimp only
      refine lt_of_le_of_lt (min_le_right _ _) ?_
      refine max_lt (by norm_num) ?_
      have hr0 : 0 ≤ |p1 - p2| / max 1 (max p1 p2) := by
        apply div_nonneg (abs_nonneg _)
        exact le_trans (by norm_num) (le_max_left _ _)
      have hps1 : min 1 (|p1 - p2| / max 1 (max p1 p2)) ≤ 1 := min_le_left _ _
      have hps0 : 0 ≤ min 1 (|p1 - p2| / max 1 (max p1 p2)) :=
        le_min (by norm_num) hr0
      nlinarith

/-- Closed evaluation of `_calculate_audio_similarity` on two explicit
fingerprints that carry no dominant-frequency entry: the weighted sum of the
per-feature similarities under the final clamp into [0, 1]. -/
theorem calcSim_eval_no_peak (l1 m1 s1 x1 n1 e1 l2 m2 s2 x2 n2 e2 : ℝ) :
    calculateAudioSimilarity
      (some ⟨l1, m1, s1, x1, n1, e1, none⟩)
      (some ⟨l2, m2, s2, x2, n2, e2, none⟩) =
    min 1 (max 0 (min l1 l2 / max l1 l2 * 0.1 +
      (1 - min 1 (|m1 - m2| / max 0.01 (max |m1| |m2|))) * 0.3 +
      (1 - min 1 (|s1 - s2| / max 0.01 (max s1 s2))) * 0.3 +
      min e1 e2 / max 0.01 (max e1 e2) * 0.3)) := rfl

/-- Closed form of the fingerprint of the alternating test signal `altBuf n a`
(for `n ≠ 0`, `0 ≤ a`): `2 * n` samples, zero mean, standard deviation `a`,
energy `2 * n * a ^ 2`, and (with the periodogram input absent) no
dominant-frequency entry. -/
theorem computeFP_altBuf (n : Nat) (a : ℚ) (hn : n ≠ 0) (ha : 0 ≤ (a : ℝ)) :
    computeAudioFingerprint (altBuf n a) none =
      some { flength := 2 * (n : ℝ)
             fmean := 0
             fstd := (a : ℝ)
             fmax := ((maxQ (altBuf n a) : ℚ) : ℝ)
             fmin := ((minQ (altBuf n a) : ℚ) : ℝ)
             fenergy := 2 * (n : ℝ) * (a : ℝ) ^ 2
             peak_freq := none } := by
  unfold computeAudioFingerprint
  rw [altBuf_length]
  rw [if_neg (by omega : ¬(2 * n = 0))]
  rw [ite_self (none : Option ℝ)]
  rw [meanQ_altBuf, varQ_altBuf n a hn, energyQ_altBuf]
  have hsq : Real.sqrt ((a ^ 2 : ℚ) : ℝ) = (a : ℝ) := by
    push_cast
    exact Real.sqrt_sq ha
  rw [hsq]
  push_cast
  norm_num

/-- C6 (amended): under `_calculate_audio_similarity` (server.py:572-605) with
the default 0.85 threshold used by `get` (server.py:685-699), (i) a nonempty
buffer and its amplitude-scaled copy with factor `c ∈ [0.9, 1]`, when the
buffer's energy is at or above the 0.01 denominator floor, always score at
least 0.85 (a similarity hit) — near-identical duration holds exactly (equal
lengths), and the same dominant-frequency input applies to both since the
signal shape is shared; and (ii) a nonempty buffer and its 10-fold repetition
(0.5 s vs 5 s durations) always score strictly below 0.85 (no match),
whatever the dominant-frequency inputs.  The original claim's unconditional
version is refuted by `c6_similarity_cex`: without an energy floor the
`max(0.01, _)` denominators crush the energy similarity of quiet buffers, and
carefully balanced buffers of 10x different duration can reach 0.85. -/
theorem c6_similarity_amended (b : List ℚ) (c : ℚ) (pk pk2 : Option ℝ)
    (hb : b ≠ []) (hc1 : (9/10 : ℚ) ≤ c) (hc2 : c ≤ 1)
    (he : (1/100 : ℚ) ≤ energyQ b) :
    (85/100 : ℝ) ≤ calculateAudioSimilarity (computeAudioFingerprint b pk)
        (computeAudioFingerprint (b.map (fun x => c * x)) pk) ∧
    calculateAudioSimilarity (computeAudioFingerprint b pk)
        (computeAudioFingerprint (repeatAudio 10 b) pk2) < 85/100 := by
  have hlen : b.length ≠ 0 := by
    intro h
    exact hb (List.length_eq_zero.mp h)
  have hc0 : (0 : ℝ) ≤ (c : ℝ) := by
    have h1 : (0 : ℚ) ≤ c := by linarith
    exact_mod_cast h1
  have hc2R : (c : ℝ) ≤ 1 := by exact_mod_cast hc2
  have hc1R : (9/10 : ℝ) ≤ (c : ℝ) := by
    have h9 : ((9/10 : ℚ) : ℝ) ≤ (c : ℝ) := Rat.cast_le.mpr hc1
    push_cast at h9
    exact h9
  constructor
  · unfold computeAudioFingerprint
    simp only [List.length_map]
    rw [if_neg hlen, if_neg hlen]
    refine calcSim_scaled_ge _ _ (c : ℝ) ?_ ?_ ?_ ?_ ?_ ?_ ?_ hc1R hc2R ?_
    · rfl
    · dsimp only
      exact_mod_cast Nat.pos_of_ne_zero hlen
    · dsimp only
      rw [meanQ_map_mul]
      push_cast
      ring
    · dsimp only
      rw [varQ_map_mul]
      push_cast
      rw [Real.sqrt_mul (sq_nonneg _), Real.sqrt_sq hc0]
    · dsimp only
      exact Real.sqrt_nonneg _
    · dsimp only
      rw [energyQ_map_mul]
      push_cast
      ring
    · dsimp only
      have h1 : ((1/100 : ℚ) : ℝ) ≤ ((energyQ b : ℚ) : ℝ) := by exact_mod_cast he
      refine le_trans ?_ h1
      norm_num
    · rfl
  · unfold computeAudioFingerprint
    rw [repeatAudio_length]
    rw [if_neg hlen, if_neg (by omega : ¬(10 * b.length = 0))]
    refine calcSim_repeat_lt _ _ ?_ ?_ ?_ ?_ ?_ ?_
    · dsimp only
      push_cast
      ring
    · dsimp only
      exact_mod_cast Nat.pos_of_ne_zero hlen
    · dsimp only
      rw [meanQ_repeatAudio 10 b (by norm_num) hb]
    · dsimp only
      rw [varQ_repeatAudio 10 b (by norm_num) hb]
    · dsimp only
      rw [energyQ_repeatAudio]
      push_cast
      ring
    · dsimp only
      exact_mod_cast energyQ_nonneg b

/-- Witness for C6 (amended) at the alternating buffer `[1/10, -1/10]` (energy
1/50 ≥ 0.01), scaling 9/10, no dominant-frequency inputs. -/
theorem c6_similarity_amended_witness :
    (85/100 : ℝ) ≤ calculateAudioSimilarity
        (computeAudioFingerprint (altBuf 1 (1/10)) none)
        (computeAudioFingerprint
          ((altBuf 1 (1/10)).map (fun x => (9/10 : ℚ) * x)) none) ∧
    calculateAudioSimilarity (computeAudioFingerprint (altBuf 1 (1/10)) none)
        (computeAudioFingerprint (repeatAudio 10 (altBuf 1 (1/10))) none) <
      85/100 :=
  c6_similarity_amended (altBuf 1 (1/10)) (9/10) none none (by decide)
    (le_refl (9/10 : ℚ)) (by norm_num) (by rw [energyQ_altBuf]; norm_num)

/-- Counterexample to C6 as stated: (i) the quiet pair consisting of the
buffer `[1/100, -1/100]` and itself (amplitude scaling exactly 1, identical
duration) scores 0.706 < 0.85, because its energy 0.0002 is crushed by the
`max(0.01, _)` denominator floor; (ii) the balanced pair `altBuf 4000
(7/6250)` (0.5 s at 16 kHz) vs `altBuf 40000 (177/500000)` (5 s), a 10x
duration ratio, scores about 0.8867 ≥ 0.85, because both energies sit just
above the 0.01 floor while the std difference is divided by the floor. -/
theorem c6_similarity_cex :
    calculateAudioSimilarity (computeAudioFingerprint (altBuf 1 (1/100)) none)
        (computeAudioFingerprint (altBuf 1 (1/100)) none) < 85/100 ∧
    (85/100 : ℝ) ≤ calculateAudioSimilarity
        (computeAudioFingerprint (altBuf 4000 (7/6250)) none)
        (computeAudioFingerprint (altBuf 40000 (177/500000)) none) := by
  constructor
  · rw [computeFP_altBuf 1 (1/100) (by norm_num) (by norm_num)]
    rw [calcSim_eval_no_peak]
    push_cast
    norm_num [min_def, max_def, abs_zero]
  · rw [computeFP_altBuf 4000 (7/6250) (by norm_num) (by norm_num),
      computeFP_altBuf 40000 (177/500000) (by norm_num) (by norm_num)]
    rw [calcSim_eval_no_peak]
    push_cast
    norm_num [min_def, max_def, abs_zero, abs_of_nonneg]

end GenieWhisper
